import Mathlib

/-!
Verification development for the Custom-Gemini-WebUI repository.

The repository ships two variants of the agent backend:
* `src/app.py` — a monolithic Flask app (path guard, cached file reads,
  shlex-tokenized command execution, a plan executor with
  confirmation/file-selection pauses and an `/api/agent_action` resume route);
* `src/agent_tools.py` + `src/views.py` (+ `database.py`, `models.py`) — a
  blueprint variant whose tools module runs approved commands through a shell
  and whose executor dropped the confirmation-pending handling.

Definitions below are shallow embeddings of the Python functions, translated
from the source.  OS effects (realpath/symlink resolution, the file system,
subprocesses, the generation backend) are passed in as explicit parameters.
-/

/- ### Python string/path primitives used by the source -/

/-- Boolean substring-prefix test on strings, via the character lists (the
built-in `String.isPrefixOf` does not reduce in the kernel). -/
def strStarts (s t : String) : Bool :=
  t.data.isPrefixOf s.data

/-- Boolean suffix test on strings, via the character lists. -/
def strEnds (s t : String) : Bool :=
  t.data.isSuffixOf s.data

/-- Splitting a character list at every occurrence of `c`, keeping empty
pieces — the semantics of Python `s.split(c)` for a one-character
separator. -/
def splitCharAux (c : Char) : List Char → List Char → List (List Char)
  | cur, [] => [cur.reverse]
  | cur, x :: xs =>
    if x == c then cur.reverse :: splitCharAux c [] xs
    else splitCharAux c (x :: cur) xs

/-- Components of a POSIX path: mirrors Python `s.split('/')` (empty pieces
are kept, `""` splits to `[""]`). -/
def splitSlash (s : String) : List String :=
  (splitCharAux '/' [] s.data).map String.mk

/-- Joining path components with `/`, mirroring `'/'.join(comps)`. -/
def joinSlash : List String → String
  | [] => ""
  | [x] => x
  | x :: xs => x ++ "/" ++ joinSlash xs

/-- Core loop of CPython `posixpath.normpath`: processes components left to
right; `""` and `"."` are dropped; `".."` is kept when the path is relative
and nothing precedes it, or when the previous kept component is itself
`".."`; otherwise it pops the previous component (or is dropped at an
absolute root). -/
def normComps (initialSlashes : Bool) : List String → List String → List String
  | newComps, [] => newComps.reverse
  | newComps, comp :: rest =>
    if comp == "" || comp == "." then
      normComps initialSlashes newComps rest
    else if comp != ".." || (!initialSlashes && newComps.isEmpty) ||
        (match newComps with | c :: _ => c == ".." | [] => false) then
      normComps initialSlashes (comp :: newComps) rest
    else
      match newComps with
      | _ :: tl => normComps initialSlashes tl rest
      | [] => normComps initialSlashes [] rest

/-- Embedding of Python `os.path.normpath` for POSIX paths.  (The POSIX
double-leading-slash quirk — exactly two leading slashes are preserved — is
not modelled; no claim exercises it.) -/
def normpath (p : String) : String :=
  if p = "" then "." else
  let initialSlashes := strStarts p "/"
  let ncomps := normComps initialSlashes [] (splitSlash p)
  let res := (if initialSlashes then "/" else "") ++ joinSlash ncomps
  if res = "" then "." else res

/-- Embedding of Python `os.path.join(a, b)` for two POSIX components: an
absolute `b` discards `a`; otherwise a single separator is inserted unless
`a` is empty or already ends with one. -/
def joinPath (a b : String) : String :=
  if strStarts b "/" then b
  else if a = "" || strEnds a "/" then a ++ b
  else a ++ "/" ++ b

/-- Embedding of Python `s.replace(c, rep, 1)` for a one-character pattern:
replaces the first occurrence only. -/
def replaceFirstChar (s : String) (c : Char) (rep : String) : String :=
  match s.toList.findIdx? (fun x => x = c) with
  | none => s
  | some i => String.mk (s.toList.take i) ++ rep ++ String.mk (s.toList.drop (i + 1))

/- ### Path guard -/

/-- Embedding of `resolve_path` (src/app.py lines 92-102; src/agent_tools.py
lines 23-34 is identical up to reading the home directory through a cached
helper).  `realp` stands for `os.path.realpath` — symlink resolution and
absolutization, an OS effect — and `home` for the expanded home directory.
The guard accepts the path iff the realpath of the joined path has the
realpath of `home` as a *string* prefix. -/
def resolve_path (realp : String → String) (home : String) (path : String) :
    Option String :=
  let path1 := normpath path
  let path2 := if strStarts path1 "~" then replaceFirstChar path1 '~' home else path1
  let full_path := normpath (joinPath home path2)
  if strStarts (realp full_path) (realp home) then some full_path else none

/-- Modelled from the spec: "the canonical form is still a descendant of the
canonicalized root" / "lies strictly within the canonical root".  A canonical
path is a (strict) descendant of the canonical root iff it extends the root
past a `/` separator. -/
def isDescendant (p root : String) : Bool :=
  strStarts p (root ++ "/")

/- ### Command guard and terminal command execution -/

/-- Boolean substring test (`sub in s` in Python), via character lists. -/
def hasSubstr (s sub : String) : Bool :=
  s.data.tails.any (fun t => sub.data.isPrefixOf t)

/-- Word characters of the `re` module's `\b` boundary: `[a-zA-Z0-9_]`. -/
def isWordChar (c : Char) : Bool :=
  c.isAlphanum || c == '_'

/-- Does the word `w` occur at the head of `s`, with `\b` boundaries on both
sides?  `prev` is the character immediately before this position (none at the
start of the string). -/
def wordAtHere (w : List Char) (prev : Option Char) (s : List Char) : Bool :=
  w.isPrefixOf s &&
  (match prev with | none => true | some c => !isWordChar c) &&
  (match s.drop w.length with | [] => true | c :: _ => !isWordChar c)

/-- Scanning every position of `s` for a `\b`-delimited occurrence of `w`. -/
def wordScanAux (w : List Char) : Option Char → List Char → Bool
  | prev, [] => wordAtHere w prev []
  | prev, c :: rest => wordAtHere w prev (c :: rest) || wordScanAux w (some c) rest

/-- `re.search(r'\bw\b', s)` succeeds, for a word `w` made of word
characters. -/
def containsWord (s w : String) : Bool :=
  wordScanAux w.data none s.data

/-- Any of the words matches (`re.search(r'\b(w1|w2|...)\b', s)` for plain
word alternatives). -/
def containsAnyWord (s : String) (ws : List String) : Bool :=
  ws.any (fun w => containsWord s w)

/-- Result of the command validator (the ad hoc status dict in the source). -/
inductive CmdValidation
  | error (message : String)
  | confirmationPending (command : String)
  | approved
deriving DecidableEq

/-- Embedding of `command_validator` (src/app.py lines 412-419).  The regex
`\b(rm|rm -r|rm -rf)\b` matches exactly when `rm` occurs as a word: the
first alternative is tried first at every position and subsumes the other
two. -/
def command_validator_app (command : String) : CmdValidation :=
  if hasSubstr command "--no-preserve-root" then
    .error "Command blocked: --no-preserve-root is forbidden."
  else if containsWord command "rm" then
    .confirmationPending command
  else
    .approved

/-- Embedding of `command_validator` (src/agent_tools.py lines 167-177),
which additionally blocks the file-writing commands. -/
def command_validator_tools (command : String) : CmdValidation :=
  if hasSubstr command "--no-preserve-root" then
    .error "Command blocked: --no-preserve-root is forbidden."
  else if containsWord command "rm" then
    .confirmationPending command
  else if containsAnyWord command ["mkdir", "printf", "echo", "tee"] then
    .error ("Command '" ++ command ++ "' is blocked. Use 'save_text_file' or 'edit_text_file' to write files.")
  else
    .approved

def squoteChar : Char := Char.ofNat 39
def dquoteChar : Char := Char.ofNat 34
def backslashChar : Char := Char.ofNat 92

/-- Lexer modes of the `shlex` model: between tokens, inside a bare word,
inside single quotes, inside double quotes. -/
inductive ShlexMode | out | word | squote | dquote

/-- Model of Python `shlex.split` (POSIX mode): whitespace separates tokens,
single quotes protect everything, double quotes protect everything except a
backslash-escaped `"` or backslash, a backslash outside quotes escapes the
next character.  (The real `shlex.split` raises on an unterminated quote;
here the token is closed at end of input — no claim depends on that case.)
`cur` holds the current token reversed; `acc` holds finished tokens
reversed. -/
def shlexRun : List Char → ShlexMode → List Char → List String → List String
  | [], .out, _, acc => acc.reverse
  | [], _, cur, acc => (String.mk cur.reverse :: acc).reverse
  | c :: cs, .out, _, acc =>
    if c == ' ' || c == '\t' || c == '\n' then shlexRun cs .out [] acc
    else if c == squoteChar then shlexRun cs .squote [] acc
    else if c == dquoteChar then shlexRun cs .dquote [] acc
    else if c == backslashChar then
      (match cs with
       | [] => shlexRun [] .word [] acc
       | d :: ds => shlexRun ds .word [d] acc)
    else shlexRun cs .word [c] acc
  | c :: cs, .word, cur, acc =>
    if c == ' ' || c == '\t' || c == '\n' then
      shlexRun cs .out [] (String.mk cur.reverse :: acc)
    else if c == squoteChar then shlexRun cs .squote cur acc
    else if c == dquoteChar then shlexRun cs .dquote cur acc
    else if c == backslashChar then
      (match cs with
       | [] => shlexRun [] .word cur acc
       | d :: ds => shlexRun ds .word (d :: cur) acc)
    else shlexRun cs .word (c :: cur) acc
  | c :: cs, .squote, cur, acc =>
    if c == squoteChar then shlexRun cs .word cur acc
    else shlexRun cs .squote (c :: cur) acc
  | c :: cs, .dquote, cur, acc =>
    if c == dquoteChar then shlexRun cs .word cur acc
    else if c == backslashChar then
      (match cs with
       | [] => shlexRun [] .dquote (c :: cur) acc
       | d :: ds =>
         if d == dquoteChar || d == backslashChar then shlexRun ds .dquote (d :: cur) acc
         else shlexRun ds .dquote (d :: c :: cur) acc)
    else shlexRun cs .dquote (c :: cur) acc

/-- Model of `shlex.split(command)`. -/
def shlexSplit (command : String) : List String :=
  shlexRun command.data .out [] []

/-- What is handed to `subprocess.run`: either a raw command string executed
through a shell (`shell=True`) or an argument vector executed without one. -/
inductive ExecCall
  | shell (cmd : String)
  | argv (args : List String)
deriving DecidableEq

/-- Outcome of the `subprocess.run` call — an OS effect, passed in. -/
inductive RunOutcome
  | ok (stdout stderr : String)
  | calledProcessError (stdout stderr : String)
  | timeoutExpired
  | otherError (msg : String)

/-- Parsed shape of the JSON string returned by `run_terminal_command`. -/
inductive CmdResult
  | stdouterr (stdout stderr : String)
  | failed (stdout stderr : String)
  | errMsg (msg : String)
  | confirmationPending (command : String)
deriving DecidableEq

/-- Embedding of `run_terminal_command` (src/app.py lines 422-451): approved
commands are `shlex.split` into an argument vector and run with
`shell=False`.  The returned pair is (result JSON shape, the process call
issued, if any). -/
def run_terminal_command_app (env : ExecCall → RunOutcome) (command : String) :
    CmdResult × Option ExecCall :=
  match command_validator_app command with
  | .error m => (.errMsg m, none)
  | .confirmationPending c => (.confirmationPending c, none)
  | .approved =>
    let call := ExecCall.argv (shlexSplit command)
    ((match env call with
      | .ok o e => .stdouterr o e
      | .calledProcessError o e => .failed o e
      | .timeoutExpired => .errMsg "Command timed out after 30 seconds."
      | .otherError m => .errMsg ("Error executing command: " ++ m)),
     some call)

/-- Embedding of `run_terminal_command` (src/agent_tools.py lines 180-206):
approved commands are passed as the raw string to `subprocess.run` with
`shell=True`. -/
def run_terminal_command_tools (env : ExecCall → RunOutcome) (command : String) :
    CmdResult × Option ExecCall :=
  match command_validator_tools command with
  | .error m => (.errMsg m, none)
  | .confirmationPending c => (.confirmationPending c, none)
  | .approved =>
    let call := ExecCall.shell command
    ((match env call with
      | .ok o e => .stdouterr o e
      | .calledProcessError o e => .failed o e
      | .timeoutExpired => .errMsg "Command timed out after 30 seconds."
      | .otherError m => .errMsg ("Error executing command: " ++ m)),
     some call)

def envOk : ExecCall → RunOutcome := fun _ => RunOutcome.ok "" ""

/- ### File system model and file reading -/

def WHITELISTED_EXTENSIONS : List String := [".pdf", ".txt", ".docx", ".py", ".c", ".ipynb"]

/-- Token threshold, in quarter-token units (see `estimate_tokens`): the
Python comparison `token_count > 65536` becomes `4*token_count > 4*65536`,
which is exact. -/
def CONTEXT_WINDOW_THRESHOLD : Nat := 65536 * 4

def MAX_FILES_BEFORE_SELECTION : Nat := 64

def CACHE_EXPIRATION_SECONDS : Int := 3600

def CODE_DIR : String := "code"

/-- Embedding of `estimate_tokens`: the source computes `len(text) / 4` as a
Python float, which is exact (quarters are exactly representable, and every
token sum and comparison in the source stays a multiple of 1/4).  The model
tracks token estimates in quarter-token units — `estimate_tokens text` is
four times the Python value, every threshold is scaled by the same factor —
which preserves each comparison exactly and keeps evaluation in the
kernel. -/
def estimate_tokens (text : String) : Nat :=
  text.length

/-- Index of the last occurrence of `c` in `l`, if any. -/
def lastIdxOf (c : Char) (l : List Char) : Option Nat :=
  match l.reverse.findIdx? (fun x => x == c) with
  | none => none
  | some k => some (l.length - 1 - k)

/-- Extension of a path component, per CPython `posixpath.splitext`: the
suffix from the last dot, unless every character before that dot is itself a
dot (so dotfiles such as `.bashrc` have no extension). -/
def extOfBase (b : List Char) : String :=
  match lastIdxOf '.' b with
  | none => ""
  | some i => if (b.take i).any (fun x => x != '.') then String.mk (b.drop i) else ""

/-- The `ext` of Python `os.path.splitext(p)`: only dots after the last path
separator count. -/
def splitextExt (p : String) : String :=
  extOfBase (((splitCharAux '/' [] p.data).getLast?).getD [])

/-- A file found by `os.walk`, already composed with
`os.path.relpath(file_path, home)` as the source's loop does: `relPath` is
the path relative to the home directory, `name` the bare file name. -/
structure WalkFile where
  relPath : String
  name : String
deriving DecidableEq

/-- The OS file-system interface the tools consume.  `realp` is
`os.path.realpath`; `fexists`/`isFile`/`isDir` are the `os.path` checks;
the four text extractors model the format-specific extraction branches
(pdfplumber page concatenation, python-docx paragraph concatenation,
nbformat cell concatenation, plain read); `walk` models `os.walk` over a
directory, flattened to the files in walk order. -/
structure FS where
  realp : String → String
  fexists : String → Bool
  isFile : String → Bool
  isDir : String → Bool
  pdfText : String → String
  docxText : String → String
  ipynbText : String → String
  plainText : String → String
  walk : String → List WalkFile

/-- Parsed shape of the JSON returned by `read_file_content`: either an
`error` object or a `path`/`content`/`tokens` object (the app variant adds a
`source` field, `"cache"` or `"disk"`; the agent_tools variant has none). -/
inductive ReadResult
  | err (msg : String)
  | content (path content : String) (tokens : Nat) (source : Option String)
deriving DecidableEq

/-- Format-specific extraction dispatch shared by both variants of
`read_file_content` (the `if ext == ...` chain over the full path). -/
def extractContent (fs : FS) (ext full_path : String) : String :=
  if ext = ".pdf" then fs.pdfText full_path
  else if ext = ".docx" then fs.docxText full_path
  else if ext = ".ipynb" then fs.ipynbText full_path
  else fs.plainText full_path

/-- Embedding of `read_file_content` (src/agent_tools.py lines 59-96): path
guard, existence check, extension whitelist on the *input* path, extraction,
token-threshold check.  (The numeric rendering inside the TooLarge message
differs from Python float formatting; no claim depends on it.) -/
def read_file_content_tools (fs : FS) (home path : String) : ReadResult :=
  match resolve_path fs.realp home path with
  | none => .err "Path traversal detected or path is invalid."
  | some full_path =>
    if !(fs.fexists full_path) || !(fs.isFile full_path) then
      .err "File not found or is not a file."
    else
      let ext := splitextExt path
      if !(WHITELISTED_EXTENSIONS.contains ext) then
        .err ("File type " ++ ext ++ " is not whitelisted.")
      else
        let content := extractContent fs ext full_path
        let token_count := estimate_tokens content
        if token_count > CONTEXT_WINDOW_THRESHOLD then
          .err ("File " ++ path ++ " is too large (" ++ toString token_count ++ " tokens). This file cannot be used.")
        else
          .content path content token_count none

/-- A row of the `file_cache` table: keyed by (chat id, path), holding the
extracted content and its insertion time. -/
structure CacheEntry where
  chatId : String
  path : String
  content : String
  createdAt : Int
deriving DecidableEq

abbrev Cache := List CacheEntry

/-- The SQL freshness condition `created_at > datetime('now', '-3600
seconds')`. -/
def cacheFresh (now : Int) (e : CacheEntry) : Bool :=
  now - CACHE_EXPIRATION_SECONDS < e.createdAt

/-- The cache lookup query of src/app.py lines 292-297: first fresh row for
this chat and path. -/
def cacheLookup (cache : Cache) (chatId path : String) (now : Int) : Option CacheEntry :=
  cache.find? (fun e => e.chatId == chatId && e.path == path && cacheFresh now e)

/-- `INSERT OR REPLACE INTO file_cache` keyed by (chat id, path). -/
def cacheInsert (cache : Cache) (e : CacheEntry) : Cache :=
  e :: cache.filter (fun x => !(x.chatId == e.chatId && x.path == e.path))

/-- Embedding of `read_file_content` (src/app.py lines 284-348), the cached
variant: a fresh cache row for (chat, path) is returned directly — before
the path guard, existence, whitelist and size checks — otherwise the file is
read from disk as in the agent_tools variant and, on success, stored in the
cache.  Returns the result together with the updated cache. -/
def read_file_content_app (fs : FS) (home : String) (now : Int)
    (chatId : Option String) (cache : Cache) (path : String) :
    ReadResult × Cache :=
  match chatId with
  | none => (.err "Chat session not found, cannot use cache.", cache)
  | some cid =>
    match cacheLookup cache cid path now with
    | some e => (.content path e.content (estimate_tokens e.content) (some "cache"), cache)
    | none =>
      match resolve_path fs.realp home path with
      | none => (.err "Path traversal detected or path is invalid.", cache)
      | some full_path =>
        if !(fs.fexists full_path) || !(fs.isFile full_path) then
          (.err "File not found or is not a file.", cache)
        else
          let ext := splitextExt path
          if !(WHITELISTED_EXTENSIONS.contains ext) then
            (.err ("File type " ++ ext ++ " is not whitelisted."), cache)
          else
            let content := extractContent fs ext full_path
            let token_count := estimate_tokens content
            if token_count > CONTEXT_WINDOW_THRESHOLD then
              (.err ("File " ++ path ++ " is too large to be processed (" ++ toString token_count ++ " tokens). This file cannot be used."), cache)
            else
              (.content path content token_count (some "disk"),
               cacheInsert cache ⟨cid, path, content, now⟩)

/-- Invariant of caches reachable through `read_file_content_app`: rows are
inserted only after the whitelist check passed, so every cached path has a
whitelisted extension. -/
def CacheOK (cache : Cache) : Prop :=
  ∀ e ∈ cache, WHITELISTED_EXTENSIONS.contains (splitextExt e.path) = true

/- ### Temporary script execution -/

/-- The OS-level outcome of one `execute_python_script` call: whether the
temp-file write succeeds, what `subprocess.run(['python', script_name])`
does, and the tracked file set after the subprocess (the executed code may
create or delete arbitrary files, including the script itself). -/
structure ScriptRunEnv where
  writeOk : Bool
  runOutcome : RunOutcome
  fsAfterRun : List String → List String

/-- The `finally` block: `if os.path.exists(script_path): os.remove(script_path)`. -/
def removeIfExists (script_path : String) (fsNow : List String) : List String :=
  if fsNow.contains script_path then fsNow.filter (fun x => x != script_path) else fsNow

/-- Embedding of `execute_python_script` (src/app.py lines 454-479 and
src/agent_tools.py lines 209-234, identical): the code is written to
`code/<scriptName>` (the unique `temp_script_<uuid4>.py` name is passed in),
the script is run, and the `finally` block removes the temp file when it
still exists — on every exit path, including a failed write, a non-zero
exit, a timeout and any other exception.  Returns the result and the file
set after the call. -/
def execute_python_script (pre : List String) (scriptName : String)
    (env : ScriptRunEnv) : CmdResult × List String :=
  let script_path := joinPath CODE_DIR scriptName
  if !env.writeOk then
    (.errMsg "Error executing Python script: write failed", removeIfExists script_path pre)
  else
    let fs1 := if pre.contains script_path then pre else script_path :: pre
    let fs2 := env.fsAfterRun fs1
    let res : CmdResult :=
      match env.runOutcome with
      | .ok o e => .stdouterr o e
      | .calledProcessError o e => .failed o e
      | .timeoutExpired => .errMsg "Script timed out after 30 seconds."
      | .otherError m => .errMsg ("Error executing Python script: " ++ m)
    (res, removeIfExists script_path fs2)

/- ### Recursive directory reading (agent_tools variant) -/

/-- Python truthiness of the `selected_files` argument: `None` and the empty
list are both falsy, so `if not selected_files:` treats an empty selection
exactly like no selection. -/
def pyFalsy : Option (List String) → Bool
  | none => true
  | some l => l.isEmpty

/-- Membership test `rel_path in selected_files` (false when no list was
passed). -/
def selectedContains (sel : Option (List String)) (p : String) : Bool :=
  match sel with
  | none => false
  | some l => l.contains p

/-- A row of the `files` list in the tool's JSON: path, token estimate and,
for unreadable files in the unfiltered mode, the error message. -/
structure FileTok where
  path : String
  tokens : Nat
  errorMsg : Option String
deriving DecidableEq

/-- Accumulator of the `os.walk` loop of `read_directory_recursively`. -/
structure ScanAcc where
  filesData : List (String × String)
  filesWithTokens : List FileTok
  total : Nat
  scanCount : Nat
deriving DecidableEq

/-- The walk loop of `read_directory_recursively` (src/agent_tools.py lines
117-147), flattened over the walk's file sequence: stop early when
unfiltered and over the file cap; count whitelisted files; skip files not in
a truthy selection; read each remaining file through `read_file_content`,
collecting content, per-file token costs and (when unfiltered) per-file
errors. -/
def dirScan (fs : FS) (home : String) (selected : Option (List String)) :
    List WalkFile → ScanAcc → ScanAcc
  | [], acc => acc
  | f :: rest, acc =>
    if pyFalsy selected && decide (acc.scanCount > MAX_FILES_BEFORE_SELECTION) then acc
    else
      let ext := splitextExt f.name
      if WHITELISTED_EXTENSIONS.contains ext then
        let acc1 := { acc with scanCount := acc.scanCount + 1 }
        if !(pyFalsy selected) && !(selectedContains selected f.relPath) then
          dirScan fs home selected rest acc1
        else
          match read_file_content_tools fs home f.relPath with
          | .content _ c t _ =>
            dirScan fs home selected rest
              { filesData := acc1.filesData ++ [(f.relPath, c)]
                filesWithTokens := acc1.filesWithTokens ++ [⟨f.relPath, t, none⟩]
                total := acc1.total + t
                scanCount := acc1.scanCount }
          | .err m =>
            if pyFalsy selected then
              dirScan fs home selected rest
                { acc1 with filesWithTokens := acc1.filesWithTokens ++ [⟨f.relPath, 0, some m⟩] }
            else
              dirScan fs home selected rest acc1
      else
        dirScan fs home selected rest acc

/-- Parsed shape of the JSON returned by `read_directory_recursively`. -/
inductive DirResult
  | err (msg : String)
  | pending (files : List FileTok) (totalTokens : Nat)
  | success (files : List (String × String)) (totalTokens : Nat) (fileCount : Nat)
deriving DecidableEq

/-- Embedding of `read_directory_recursively` (src/agent_tools.py lines
99-164): home-directory guard, path guard, directory check, the walk loop,
then `file_selection_pending` when unfiltered and over the token threshold
or the 64-file cap, else success with the collected content. -/
def read_directory_recursively_tools (fs : FS) (home path : String)
    (selected : Option (List String)) : DirResult :=
  if path = "." || path = "~" || path = "~/" then
    .err "Reading the entire home directory ('.' or '~') is not allowed. Please specify a subdirectory (e.g., 'Documents/')."
  else
    match resolve_path fs.realp home path with
    | none => .err "Path traversal detected or path is invalid."
    | some full_path =>
      if !(fs.fexists full_path) || !(fs.isDir full_path) then
        .err "Path does not exist or is not a directory."
      else
        let acc := dirScan fs home selected (fs.walk full_path) ⟨[], [], 0, 0⟩
        if pyFalsy selected &&
            (decide (acc.total > CONTEXT_WINDOW_THRESHOLD) ||
             decide (acc.scanCount > MAX_FILES_BEFORE_SELECTION)) then
          .pending acc.filesWithTokens acc.total
        else
          .success acc.filesData acc.total acc.filesData.length

/- ### Plan executor state machine -/

/-- One step of a parsed plan: `{tool, parameters, reasoning}`.  The
parameter mapping is carried as its serialized form — the executor only
passes it through to the dispatched tool. -/
structure PlanStep where
  tool : String
  params : String
  reasoning : Option String
deriving DecidableEq

/-- A transcript message: role, `message_type`, content. -/
structure Msg where
  role : String
  mtype : String
  content : String
deriving DecidableEq

/-- Per-chat executor state: the session-stored plan, cursor and goal
(`agent_plan_/agent_step_/agent_goal_` keys; a popped key is modelled as
`none`, and the popped cursor as `0`, which is what `session.get(..., 0)`
then yields), plus the appended transcript. -/
structure ExecState where
  plan : Option (List PlanStep)
  stepIdx : Nat
  goal : Option String
  messages : List Msg
deriving DecidableEq

/-- Parsed status of a dispatched tool's JSON output: the two pause
statuses the app executor branches on, or any other payload (success or
plain error), kept serialized. -/
inductive ToolOutcome
  | confirmationPending (command : String)
  | fileSelectionPending (files : List FileTok) (totalTokens : Nat)
  | payload (s : String)
deriving DecidableEq

/-- Dispatching a tool either returns its (parsed) JSON output or raises. -/
inductive ToolDispatch
  | result (r : ToolOutcome)
  | raised (msg : String)
deriving DecidableEq

/-- The tool registry as a function: tool name, serialized parameters, and
the optional injected `selected_files` list. -/
abbrev ToolEnv := String → String → Option (List String) → ToolDispatch

/-- Outcome of the final synthesis generation call. -/
inductive SynthOutcome
  | ok (text : String)
  | blockedOrEmpty
  | raised (msg : String)

/-- Models `json.dumps` of a parsed tool output as re-serialized by the
views executor (the file list of a selection-pending payload is elided from
the rendering; no claim depends on it). -/
def toolOutcomeJson : ToolOutcome → String
  | .payload s => s
  | .confirmationPending cmd =>
    "\x7b\"status\": \"confirmation_pending\", \"command\": \"" ++ cmd ++ "\"\x7d"
  | .fileSelectionPending _ t =>
    "\x7b\"status\": \"file_selection_pending\", \"total_tokens\": " ++ toString t ++ "\x7d"

/-- Keys of `TOOLS_MAP` in src/app.py. -/
def TOOLS_MAP_app : List String :=
  ["list_directory", "read_file_content", "read_directory_recursively",
   "save_text_file", "delete_file_in_code", "run_terminal_command",
   "execute_python_script"]

/-- Keys of `TOOLS_MAP` in src/agent_tools.py (used by src/views.py). -/
def TOOLS_MAP_tools : List String :=
  ["list_directory", "read_file_content", "read_directory_recursively",
   "save_text_file", "edit_text_file", "run_terminal_command",
   "execute_python_script"]

/-- The `tool_call` transcript entry recorded before dispatch. -/
def toolCallHtml (tool params : String) : String :=
  "<strong>Tool Call:</strong> <code>" ++ tool ++ "(" ++ params ++ ")</code>"

/-- The confirmation prompt recorded on a `confirmation_pending` result
(the approve/deny button markup is abbreviated; the message type is what
matters). -/
def confirmationHtml (cmd : String) : String :=
  "<strong>Deletion Confirmation Required</strong><p>The agent wants to run: <code>"
    ++ cmd ++ "</code></p><div class=\"plan-actions\">[approve/deny buttons]</div>"

/-- The file-selection prompt recorded on a `file_selection_pending` result
(the checkbox form markup is abbreviated). -/
def fileSelectionHtml (files : List FileTok) (total : Nat) : String :=
  "<strong>File Selection Required</strong><p>The agent found " ++ toString files.length
    ++ " files, totaling " ++ toString total ++ " tokens, which exceeds the limit.</p>[selection form]"

/-- Status of one executor HTTP call. -/
inductive ExecStatus
  | complete (message : String)
  | error (message : String)
  | confirmationPending (content : String)
  | fileSelectionPending (content : String)
  | proceed
deriving DecidableEq

/-- The environment an executor call consumes: the tool registry, the final
synthesis call, the direct subprocess run of a confirmed command, the
re-invocation of the directory read with a selection, and markdown
rendering. -/
structure ExecEnv where
  tool : ToolEnv
  synth : SynthOutcome
  runCmd : String → CmdResult
  dirRead : String → List String → String
  render : String → String

/-- The branch taken when no plan exists or the cursor is past the end:
state cleared, completion message recorded. -/
def clearedComplete (st : ExecState) : ExecStatus × ExecState × Option Nat :=
  (.complete "Agent has completed the plan.",
   { plan := none, stepIdx := 0, goal := none,
     messages := st.messages ++ [⟨"model", "chat", "Agent has completed the plan."⟩] },
   none)

/-- Models `json.dumps` of the confirmed-command subprocess result in
`agent_action`. -/
def cmdResultJson : CmdResult → String
  | .stdouterr o e =>
    "\x7b\"stdout\": \"" ++ o ++ "\", \"stderr\": \"" ++ e ++ "\"\x7d"
  | .failed o e =>
    "\x7b\"error\": \"Command failed\", \"stdout\": \"" ++ o ++ "\", \"stderr\": \"" ++ e ++ "\"\x7d"
  | .errMsg m => "\x7b\"error\": \"" ++ m ++ "\"\x7d"
  | .confirmationPending c =>
    "\x7b\"status\": \"confirmation_pending\", \"command\": \"" ++ c ++ "\"\x7d"

/-- Embedding of the `/api/execute_plan` route of src/app.py (lines
696-795).  One HTTP call processes one step: missing plan or exhausted
cursor completes and clears; an unknown tool records an error; otherwise a
`tool_call` entry is recorded, the tool dispatched (with `selected_files`
injected from the request for the directory-read tool), and the executor
branches on the result — the two pending statuses record a
`user_confirmation` prompt and pause without advancing, anything else is
recorded as `tool_output` and the cursor advances; reaching the end runs
the synthesis call and clears the plan state.  The third component is the
index of the plan step dispatched by this call, if any. -/
def execute_plan_app (E : ExecEnv) (selectedReq : Option (List String))
    (st : ExecState) : ExecStatus × ExecState × Option Nat :=
  match st.plan with
  | none => clearedComplete st
  | some plan =>
    match plan[st.stepIdx]? with
    | none => clearedComplete st
    | some step =>
      if !(TOOLS_MAP_app.contains step.tool) then
        let m := "Error: Tool \"" ++ step.tool ++ "\" not found."
        (.error m, { st with messages := st.messages ++ [⟨"model", "chat", m⟩] }, none)
      else
        let stc : ExecState := { st with messages := st.messages ++ [⟨"model", "tool_call", toolCallHtml step.tool step.params⟩] }
        let sel := if step.tool == "read_directory_recursively" then selectedReq else none
        match E.tool step.tool step.params sel with
        | .raised m =>
          let em := "An error occurred during agent execution: " ++ m
          (.error em, { stc with messages := stc.messages ++ [⟨"model", "chat", em⟩] },
           some st.stepIdx)
        | .result (.confirmationPending cmd) =>
          let ch := confirmationHtml cmd
          (.confirmationPending ch,
           { stc with messages := stc.messages ++ [⟨"model", "user_confirmation", ch⟩] },
           some st.stepIdx)
        | .result (.fileSelectionPending files total) =>
          let sh := fileSelectionHtml files total
          (.fileSelectionPending sh,
           { stc with messages := stc.messages ++ [⟨"model", "user_confirmation", sh⟩] },
           some st.stepIdx)
        | .result (.payload out) =>
          let st1 : ExecState := { stc with
                       stepIdx := st.stepIdx + 1,
                       messages := stc.messages ++ [⟨"model", "tool_output", "<pre>" ++ out ++ "</pre>"⟩] }
          if st.stepIdx + 1 ≥ plan.length then
            match E.synth with
            | .raised m =>
              let em := "An error occurred during agent execution: " ++ m
              (.error em, { st1 with messages := st1.messages ++ [⟨"model", "chat", em⟩] },
               some st.stepIdx)
            | .ok t =>
              let fa := E.render t
              (.complete fa,
               { plan := none, stepIdx := 0, goal := none,
                 messages := st1.messages ++ [⟨"model", "chat", fa⟩] },
               some st.stepIdx)
            | .blockedOrEmpty =>
              (.complete "Agent has completed the plan.",
               { plan := none, stepIdx := 0, goal := none,
                 messages := st1.messages ++ [⟨"model", "chat", "Agent has completed the plan."⟩] },
               some st.stepIdx)
          else
            (.proceed, st1, some st.stepIdx)

/-- The two resumption actions of `/api/agent_action` (src/app.py lines
798-855). -/
inductive AgentAction
  | confirmDeletion (command : String)
  | processSelectedFiles (files : List String)
deriving DecidableEq

/-- Embedding of the `/api/agent_action` route of src/app.py: a
`confirm_deletion` action against a paused `run_terminal_command` step runs
the confirmed command directly through `subprocess` (a direct run, not a
dispatch of the plan step's tool), records the confirmation and the output,
and advances the cursor; a `process_selected_files` action against a
`read_directory_recursively` step re-invokes that tool with the selection
(a dispatch of the current step) and advances.  A missing plan is a 400
error; a cursor past the plan end raises `IndexError` in Python (HTTP 500)
with no state change. -/
def agent_action_app (E : ExecEnv) (action : AgentAction) (st : ExecState) :
    ExecStatus × ExecState × Option Nat :=
  match st.plan with
  | none => (.error "No active plan found", st, none)
  | some plan =>
    match plan[st.stepIdx]? with
    | none => (.error "IndexError: list index out of range", st, none)
    | some step =>
      match action with
      | .confirmDeletion cmd =>
        if step.tool == "run_terminal_command" then
          (.proceed,
           { st with
             stepIdx := st.stepIdx + 1,
             messages := st.messages ++
               [⟨"user", "user_confirmation", "User approved command: " ++ cmd⟩,
                ⟨"model", "tool_output", "<pre>" ++ cmdResultJson (E.runCmd cmd) ++ "</pre>"⟩] },
           none)
        else (.error "Invalid action or state", st, none)
      | .processSelectedFiles files =>
        if step.tool == "read_directory_recursively" then
          (.proceed,
           { st with
             stepIdx := st.stepIdx + 1,
             messages := st.messages ++
               [⟨"user", "user_confirmation", "User selected " ++ toString files.length ++ " files to process."⟩,
                ⟨"model", "tool_output", "<pre>" ++ E.dirRead step.params files ++ "</pre>"⟩] },
           some st.stepIdx)
        else (.error "Invalid action or state", st, none)

/-- Embedding of the `/api/execute_plan` route of src/views.py (lines
304-389).  The `confirmation_pending` branch was removed from this variant
(and `/api/agent_action` with it), so *every* tool result — pending
statuses included — is recorded as `tool_output` and the cursor advances;
no `tool_call` entry is recorded before dispatch in this variant. -/
def execute_plan_views (E : ExecEnv) (st : ExecState) :
    ExecStatus × ExecState × Option Nat :=
  match st.plan with
  | none => clearedComplete st
  | some plan =>
    match plan[st.stepIdx]? with
    | none => clearedComplete st
    | some step =>
      if !(TOOLS_MAP_tools.contains step.tool) then
        let m := "Error: Tool \"" ++ step.tool ++ "\" not found."
        (.error m, { st with messages := st.messages ++ [⟨"model", "chat", m⟩] }, none)
      else
        match E.tool step.tool step.params none with
        | .raised m =>
          let em := "An error occurred during agent execution: " ++ m
          (.error em, { st with messages := st.messages ++ [⟨"model", "chat", em⟩] },
           some st.stepIdx)
        | .result r =>
          let st1 : ExecState := { st with
                       stepIdx := st.stepIdx + 1,
                       messages := st.messages ++ [⟨"model", "tool_output", "<pre>" ++ toolOutcomeJson r ++ "</pre>"⟩] }
          if st.stepIdx + 1 ≥ plan.length then
            match E.synth with
            | .raised m =>
              let em := "An error occurred during agent execution: " ++ m
              (.error em, { st1 with messages := st1.messages ++ [⟨"model", "chat", em⟩] },
               some st.stepIdx)
            | .ok t =>
              let fa := E.render t
              (.complete fa,
               { plan := none, stepIdx := 0, goal := none,
                 messages := st1.messages ++ [⟨"model", "chat", fa⟩] },
               some st.stepIdx)
            | .blockedOrEmpty =>
              (.complete "Agent has completed the plan.",
               { plan := none, stepIdx := 0, goal := none,
                 messages := st1.messages ++ [⟨"model", "chat", "Agent has completed the plan."⟩] },
               some st.stepIdx)
          else
            (.proceed, st1, some st.stepIdx)

/-- One external call against the app executor: a `/api/execute_plan` POST
(with its optional `selected_files` field) or an `/api/agent_action`
POST. -/
inductive ExecutorCall
  | runStep (selectedReq : Option (List String))
  | action (a : AgentAction)

/-- Dispatching one executor call. -/
def executor_invoke (E : ExecEnv) : ExecutorCall → ExecState → ExecStatus × ExecState × Option Nat
  | .runStep sel, st => execute_plan_app E sel st
  | .action a, st => agent_action_app E a st

/-- Running a sequence of executor calls, collecting the plan index
dispatched by each call (if any) and the final state. -/
def executor_trace (E : ExecEnv) : List ExecutorCall → ExecState → List (Option Nat) × ExecState
  | [], st => ([], st)
  | c :: cs, st =>
    let r := executor_invoke E c st
    let rest := executor_trace E cs r.2.1
    (r.2.2 :: rest.1, rest.2)

/- ### Chat turn: classifier, planner, fallback (api_chat) -/

/-- Python `str.upper()` (ASCII-level model). -/
def pyUpper (s : String) : String :=
  String.mk (s.data.map Char.toUpper)

/-- Whitespace of Python `str.strip()`. -/
def isSpaceChar (c : Char) : Bool :=
  c == ' ' || c == '\t' || c == '\n' || c == '\r' || c == '\x0b' || c == '\x0c'

/-- Python `str.strip()`. -/
def pyStrip (s : String) : String :=
  String.mk (((s.data.dropWhile isSpaceChar).reverse.dropWhile isSpaceChar).reverse)

/-- Python `str.lstrip(chars)`: drops leading characters belonging to the
set. -/
def lstripSet (cs : List Char) (s : String) : String :=
  String.mk (s.data.dropWhile (fun c => cs.contains c))

/-- Python `str.rstrip(chars)`. -/
def rstripSet (cs : List Char) (s : String) : String :=
  String.mk (((s.data.reverse.dropWhile (fun c => cs.contains c))).reverse)

def backtickChar : Char := Char.ofNat 96

/-- The fence stripping applied to the planner's text:
`text.strip().lstrip('```json').rstrip('```').strip()` — note that the
`lstrip`/`rstrip` arguments are character *sets*. -/
def stripCodeFences (s : String) : String :=
  pyStrip (rstripSet [backtickChar] (lstripSet [backtickChar, 'j', 's', 'o', 'n'] (pyStrip s)))

/-- A generation response as the caller sees it: whether candidates exist,
whether the finish reason is `SAFETY`, and the text. -/
structure GenResp where
  hasCandidates : Bool
  finishedSafety : Bool
  text : String

/-- Outcome of `json.loads` on the stripped planner text followed by the
plan-structure check: a `JSONDecodeError` (carrying its message), a parsed
object without a `plan` list (the raised-and-caught
`ValueError('Invalid plan structure')`), or a valid step list. -/
inductive PlanParse
  | failed (err : String)
  | invalidStructure
  | ok (steps : List PlanStep)

/-- The external collaborators of one `/api/chat` turn: markdown rendering,
the JSON parse of the planner output, the user-message count used in the
footer, and the chat's model name. -/
structure ChatTurnEnv where
  render : String → String
  parse : String → PlanParse
  msgCount : Nat
  modelName : String

/-- The inputs of one `/api/chat` turn: the request flags and the three
generation responses the turn may consume. -/
structure ChatTurnInput where
  agentMode : Bool
  prompt : String
  classifierText : String
  plannerResp : GenResp
  chatResp : GenResp
  blockReason : String

/-- What the turn records and stores: the transcript message (content and
`message_type`) and the session plan state written by the turn. -/
structure TurnOut where
  content : String
  messageType : String
  storedPlan : Option (List PlanStep)
  storedStep : Option Nat
  storedGoal : Option String
deriving DecidableEq

/-- One `<li>` of the rendered plan. -/
def planStepHtml (s : PlanStep) : String :=
  "<li><strong>" ++ s.tool ++ "</strong>: " ++ s.reasoning.getD "No reasoning provided." ++ "</li>"

/-- The rendered plan message (the approve/edit/cancel button markup is
abbreviated). -/
def planHtmlOf (steps : List PlanStep) : String :=
  "<h3>Agent Plan</h3><ol>" ++ String.join (steps.map planStepHtml) ++ "</ol>"
    ++ "<div class=\"plan-actions\">[approve/edit/cancel buttons]</div>"

/-- Embedding of the `/api/chat` turn logic of src/app.py lines 589-671
(src/views.py lines 201-278 agrees on everything the claims touch; its chat
footer lacks the message counter).  `decision` defaults to `CHAT` and, in
agent mode, is replaced by the classifier's stripped-and-uppercased text.
The TASK branch is entered when `'TASK' in decision`; a planner parse
failure builds an error message carrying the parse error and the raw text
and resets `decision` to `CHAT`; the CHAT branch is entered when
`'CHAT' in decision` (or agent mode is off) and *reassigns* `response_text`.
The single transcript write at the end records whatever `response_text`
holds then. -/
def api_chat_turn (E : ChatTurnEnv) (inp : ChatTurnInput) : TurnOut :=
  let decision := if inp.agentMode then pyUpper (pyStrip inp.classifierText) else "CHAT"
  let afterTask : String × String × Option (List PlanStep) × Option Nat × Option String × String :=
    if hasSubstr decision "TASK" && inp.agentMode then
      if inp.plannerResp.hasCandidates && !inp.plannerResp.finishedSafety then
        let raw := stripCodeFences inp.plannerResp.text
        match E.parse raw with
        | .ok steps =>
          (planHtmlOf steps, "agent_plan", some steps, some 0, some inp.prompt, decision)
        | .failed e =>
          ("--- ERROR: Model generated an invalid plan. Trying as chat instead. ---\n" ++ e ++ "\n" ++ raw,
           "chat", none, none, none, "CHAT")
        | .invalidStructure =>
          ("--- ERROR: Model generated an invalid plan. Trying as chat instead. ---\nInvalid plan structure\n" ++ raw,
           "chat", none, none, none, "CHAT")
      else
        ("--- ERROR: The agent plan was blocked by safety filters. ---",
         "chat", none, none, none, decision)
    else
      ("", "chat", none, none, none, decision)
  let (rt0, mt, sp, ss, sg, decision2) := afterTask
  let rt :=
    if hasSubstr decision2 "CHAT" || !inp.agentMode then
      if inp.chatResp.hasCandidates then
        if inp.chatResp.finishedSafety then
          "--- ERROR: The response was blocked by safety filters. ---"
        else
          E.render inp.chatResp.text ++ "\n\n<div class=\"msg-meta\">(Model: " ++ E.modelName
            ++ " | <span class=\"msg-counter\">" ++ toString E.msgCount ++ "</span>)</div>"
      else
        "--- ERROR: Your prompt was blocked by safety filters (Reason: " ++ inp.blockReason ++ "). Please rephrase. ---"
    else rt0
  ⟨rt, mt, sp, ss, sg⟩

/- ### Evolution invariant of one executor call and concrete fixtures -/

/-- What one executor call does to the per-chat state: the plan is preserved
or cleared (never replaced); while the plan survives, the cursor never
decreases and advances by at most one; a cursor within bounds stays within
bounds; a dispatch targets exactly the current cursor position of an alive
plan; and with no plan alive nothing is dispatched and the plan stays
cleared. -/
def StepOK (r : ExecStatus × ExecState × Option Nat) (st : ExecState) : Prop :=
  (r.2.1.plan = st.plan ∨ r.2.1.plan = none) ∧
  (st.stepIdx ≤ r.2.1.stepIdx ∨ r.2.1.plan = none) ∧
  r.2.1.stepIdx ≤ st.stepIdx + 1 ∧
  (∀ plan, st.plan = some plan → st.stepIdx ≤ plan.length →
    r.2.1.stepIdx ≤ plan.length ∨ r.2.1.plan = none) ∧
  (∀ i, r.2.2 = some i →
    i = st.stepIdx ∧ ∃ plan, st.plan = some plan ∧ i < plan.length) ∧
  (st.plan = none → r.2.1.plan = none ∧ r.2.2 = none)

/-- A concrete file system: `/home/user/docs` holds one small whitelisted
text file `a.txt` and one unwhitelisted file `notes.md`; no symlinks, so
`realpath` is the identity on these canonical paths. -/
def fsDocs : FS :=
  { realp := fun s => s
    fexists := fun s =>
      s == "/home/user/docs" || s == "/home/user/docs/a.txt" || s == "/home/user/docs/notes.md"
    isFile := fun s => s == "/home/user/docs/a.txt" || s == "/home/user/docs/notes.md"
    isDir := fun s => s == "/home/user/docs"
    pdfText := fun _ => ""
    docxText := fun _ => ""
    ipynbText := fun _ => ""
    plainText := fun s => if s == "/home/user/docs/a.txt" then "hi" else ""
    walk := fun s => if s == "/home/user/docs" then [⟨"docs/a.txt", "a.txt"⟩] else [] }

/-- A file system on which nothing exists (a file deleted after being
cached). -/
def fsEmpty : FS :=
  { realp := fun s => s
    fexists := fun _ => false
    isFile := fun _ => false
    isDir := fun _ => false
    pdfText := fun _ => ""
    docxText := fun _ => ""
    ipynbText := fun _ => ""
    plainText := fun _ => ""
    walk := fun _ => [] }

/-- A concrete executor environment whose terminal-command tool reports a
pending deletion confirmation. -/
def envPending : ExecEnv :=
  { tool := fun t _ _ =>
      if t == "run_terminal_command" then .result (.confirmationPending "rm -rf tmp")
      else .result (.payload "\x7b\"entries\": []\x7d")
    synth := .ok "done"
    runCmd := fun _ => .stdouterr "" ""
    dirRead := fun _ _ => "\x7b\"status\": \"success\"\x7d"
    render := fun s => s }

/-- A two-step approved plan whose first step is the guarded delete. -/
def planRm : List PlanStep :=
  [⟨"run_terminal_command", "\x7b\"command\": \"rm -rf tmp\"\x7d", none⟩,
   ⟨"list_directory", "\x7b\"path\": \"docs\"\x7d", none⟩]

/-- Executor state at the start of `planRm`. -/
def stRm : ExecState :=
  { plan := some planRm, stepIdx := 0, goal := some "clean up", messages := [] }

/-- A concrete chat-turn environment: identity rendering, a JSON parse that
fails the way `json.loads` fails on non-JSON text. -/
def chatEnvId : ChatTurnEnv :=
  { render := fun s => s
    parse := fun _ => .failed "Expecting value: line 1 column 1 (char 0)"
    msgCount := 1
    modelName := "gemini-2.5-pro" }

/-- A turn in agent mode whose classifier answers `TASK`, whose planner
returns non-JSON text and whose fallback chat call succeeds. -/
def chatInpParseFail : ChatTurnInput :=
  { agentMode := true
    prompt := "do stuff"
    classifierText := "TASK"
    plannerResp := ⟨true, false, "oops not json"⟩
    chatResp := ⟨true, false, "Hello"⟩
    blockReason := "Unknown" }

/-- A turn in agent mode whose classifier answers with neither label. -/
def chatInpNoLabel : ChatTurnInput :=
  { agentMode := true
    prompt := "hello there"
    classifierText := "OK"
    plannerResp := ⟨true, false, "irrelevant"⟩
    chatResp := ⟨true, false, "hi"⟩
    blockReason := "Unknown" }

/- ### Recursive directory reading (cached app variant) -/

/-- A directory subtree as `os.walk` sees it: the directory's name, the file
names directly inside it, and its subdirectories. -/
inductive DirTree
  | node (name : String) (files : List String) (subdirs : List DirTree)

/-- The name of a subtree's root directory. -/
def DirTree.dirName : DirTree → String
  | .node n _ _ => n

mutual

/-- The `os.walk(full_path, topdown=True)` traversal as pruned by the loop
header of src/app.py lines 364-368: at every directory, hidden
subdirectories are removed from `dirs` before descent (`dirs[:] = ...`) and
hidden files are dropped from `files`; the remaining (root, file) pairs are
produced in walk order — a directory's own files first, then its subtrees
in order. -/
def appWalk (root : String) : DirTree → List (String × String)
  | .node _ files subdirs =>
    (files.filter (fun f => !(strStarts f "."))).map (fun f => (root, f)) ++
    appWalkList root subdirs

/-- Descends into the non-hidden subdirectories in order. -/
def appWalkList (root : String) : List DirTree → List (String × String)
  | [] => []
  | d :: ds =>
    (if strStarts d.dirName "." then [] else appWalk (joinPath root d.dirName) d) ++
    appWalkList root ds

end

/-- Models `os.path.relpath(p, home)` for the case the claims exercise: a
path below the home directory loses the `home/` prefix.  (Paths not under
`home` would yield `..`-relative results; no walked path in the model takes
that shape.) -/
def relpathFromHome (home p : String) : String :=
  if strStarts p (home ++ "/") then String.mk (p.data.drop (home.length + 1)) else p

/-- The walk loop of `read_directory_recursively` in src/app.py (lines
364-392), over the pruned (root, file) pairs: files with whitelisted
extensions are read through the *cached* `read_file_content`, whose cache
updates thread through the loop; a truthy selection skips unselected paths;
content, per-file token costs and (when unfiltered) per-file errors are
collected.  This variant counts no files (no 64-file cap), so the
accumulator's `scanCount` stays untouched. -/
def dirScanApp (fs : FS) (home : String) (now : Int) (chatId : Option String)
    (selected : Option (List String)) :
    List (String × String) → Cache → ScanAcc → ScanAcc × Cache
  | [], cache, acc => (acc, cache)
  | (root, file) :: rest, cache, acc =>
    let rel := relpathFromHome home (joinPath root file)
    let ext := splitextExt file
    if WHITELISTED_EXTENSIONS.contains ext then
      if !(pyFalsy selected) && !(selectedContains selected rel) then
        dirScanApp fs home now chatId selected rest cache acc
      else
        let r := read_file_content_app fs home now chatId cache rel
        match r.1 with
        | .content _ c t _ =>
          dirScanApp fs home now chatId selected rest r.2
            { filesData := acc.filesData ++ [(rel, c)]
              filesWithTokens := acc.filesWithTokens ++ [⟨rel, t, none⟩]
              total := acc.total + t
              scanCount := acc.scanCount }
        | .err m =>
          if pyFalsy selected then
            dirScanApp fs home now chatId selected rest r.2
              { acc with filesWithTokens := acc.filesWithTokens ++ [⟨rel, 0, some m⟩] }
          else
            dirScanApp fs home now chatId selected rest r.2 acc
    else
      dirScanApp fs home now chatId selected rest cache acc

/-- Embedding of `read_directory_recursively` in src/app.py (lines 351-409),
the cached variant: no home-directory guard, hidden entries pruned during
the walk, the cached `read_file_content` threaded through the loop, and
`file_selection_pending` triggered by the token threshold alone (this
variant has no 64-file cap).  `tree` is the on-disk subtree that `os.walk`
traverses at the resolved path.  Returns the result and the cache after the
walk. -/
def read_directory_recursively_app (fs : FS) (tree : DirTree) (home path : String)
    (now : Int) (chatId : Option String) (cache : Cache)
    (selected : Option (List String)) : DirResult × Cache :=
  match resolve_path fs.realp home path with
  | none => (.err "Path traversal detected or path is invalid.", cache)
  | some full_path =>
    if !(fs.fexists full_path) || !(fs.isDir full_path) then
      (.err "Path does not exist or is not a directory.", cache)
    else
      let r := dirScanApp fs home now chatId selected (appWalk full_path tree) cache ⟨[], [], 0, 0⟩
      if pyFalsy selected && decide (r.1.total > CONTEXT_WINDOW_THRESHOLD) then
        (.pending r.1.filesWithTokens r.1.total, r.2)
      else
        (.success r.1.filesData r.1.total r.1.filesData.length, r.2)

/-- The subtree at `/home/user/docs`: one file `a.txt`, no subdirectories. -/
def treeDocs : DirTree := .node "docs" ["a.txt"] []

/-- A chat-turn environment whose planner output parses into a one-step
plan. -/
def chatEnvOkPlan : ChatTurnEnv :=
  { render := fun s => s
    parse := fun _ => .ok [⟨"list_directory", "\x7b\"path\": \"docs\"\x7d", some "see the files"⟩]
    msgCount := 1
    modelName := "gemini-2.5-pro" }

/-- A turn in agent mode whose classifier answers `task: go` — a response
that *contains* the TASK label without being exactly the label. -/
def chatInpTaskSub : ChatTurnInput :=
  { agentMode := true
    prompt := "list my docs"
    classifierText := "task: go"
    plannerResp := ⟨true, false, "plan json"⟩
    chatResp := ⟨true, false, "sure"⟩
    blockReason := "Unknown" }

/- ### Theorems about the claims -/

/-- C1: the sandbox-containment claim fails on the code.  With home directory
`/home/user` and no symlinks in play (so that `realpath` is the identity on
these already-canonical paths), the input `../userx/secret` canonicalizes to
`/home/userx/secret`, which is *not* a descendant of the root — yet
`resolve_path` returns it, because the guard's `startswith` test is a raw
string-prefix check and `/home/userx/secret` starts with `/home/user`. -/
theorem C1_resolve_path_prefix_escape :
    resolve_path (fun s => s) "/home/user" "../userx/secret" = some "/home/userx/secret" ∧
    isDescendant "/home/userx/secret" "/home/user" = false := by
  constructor
  · decide
  · decide

/-- C3 counterexample: `ls -la` is approved by the agent_tools validator,
yet `run_terminal_command` in src/agent_tools.py hands the raw string to a
shell (`shell=True`), not the shlex-tokenized argument vector. -/
theorem C3_counterexample_shell_execution :
    command_validator_tools "ls -la" = CmdValidation.approved ∧
    (run_terminal_command_tools envOk "ls -la").2 = some (ExecCall.shell "ls -la") ∧
    ExecCall.shell "ls -la" ≠ ExecCall.argv (shlexSplit "ls -la") := by
  refine ⟨by decide, by decide, by decide⟩

/-- C3 amended: in the src/app.py variant every approved command is executed
as the shlex-tokenized argument vector without a shell; in the
src/agent_tools.py variant every approved command is instead handed as the
raw string to a shell interpreter. -/
theorem C3_approved_command_execution (env : ExecCall → RunOutcome) (cmd : String) :
    (command_validator_app cmd = CmdValidation.approved →
      (run_terminal_command_app env cmd).2 = some (ExecCall.argv (shlexSplit cmd))) ∧
    (command_validator_tools cmd = CmdValidation.approved →
      (run_terminal_command_tools env cmd).2 = some (ExecCall.shell cmd)) := by
  constructor
  · intro h
    simp [run_terminal_command_app, h]
  · intro h
    simp [run_terminal_command_tools, h]

/-- Witness for C3: the approved command `ls -la` concretely dispatches the
tokenized argument vector in the app variant. -/
theorem C3_approved_command_execution_witness :
    (run_terminal_command_app envOk "ls -la").2 = some (ExecCall.argv (shlexSplit "ls -la")) :=
  (C3_approved_command_execution envOk "ls -la").1 (by decide)

/-- Supporting invariant: every call of the cached `read_file_content`
preserves `CacheOK` — a row is inserted only after the whitelist check
passed for its path. -/
theorem read_file_content_app_preserves_cacheOK
    (fs : FS) (home : String) (now : Int) (chatId : Option String)
    (cache : Cache) (path : String) (h : CacheOK cache) :
    CacheOK (read_file_content_app fs home now chatId cache path).2 := by
  dsimp only [read_file_content_app]
  split
  · exact h
  · split
    · exact h
    · split
      · exact h
      · split
        · exact h
        · split
          · exact h
          · split
            · exact h
            · rename_i cid hl fp hfe hwl hbig
              intro e he
              dsimp only [cacheInsert] at he
              rcases List.mem_cons.mp he with rfl | hmem2
              · simpa using hwl
              · exact h e (List.mem_filter.mp hmem2).1

/-- C6: for every existing file whose extension is outside the whitelist,
`read_file_content` returns the Unwhitelisted error and never the content —
in the cached src/app.py variant for every reachable cache (by
`read_file_content_app_preserves_cacheOK`, rows exist only for whitelisted
paths, so such a file can have no cache row), and unconditionally in the
src/agent_tools.py variant. -/
theorem C6_unwhitelisted_never_read
    (fs : FS) (home path fp : String) (now : Int) (cid : String) (cache : Cache)
    (hres : resolve_path fs.realp home path = some fp)
    (hex : fs.fexists fp = true) (hfile : fs.isFile fp = true)
    (hcache : CacheOK cache)
    (hext : WHITELISTED_EXTENSIONS.contains (splitextExt path) = false) :
    (read_file_content_app fs home now (some cid) cache path).1 =
      ReadResult.err ("File type " ++ splitextExt path ++ " is not whitelisted.") ∧
    read_file_content_tools fs home path =
      ReadResult.err ("File type " ++ splitextExt path ++ " is not whitelisted.") := by
  have hmiss : cacheLookup cache cid path now = none := by
    cases hl : cacheLookup cache cid path now with
    | none => rfl
    | some e =>
      exfalso
      have hp := List.find?_some hl
      have hmem := List.mem_of_find?_eq_some hl
      simp only [Bool.and_eq_true, beq_iff_eq] at hp
      have hok := hcache e hmem
      rw [hp.1.2] at hok
      rw [hok] at hext
      simp at hext
  have hextm : splitextExt path ∉ WHITELISTED_EXTENSIONS := by simpa using hext
  constructor
  · dsimp only [read_file_content_app]
    rw [hmiss, hres]
    simp [hex, hfile, hextm]
  · dsimp only [read_file_content_tools]
    rw [hres]
    simp [hex, hfile, hextm]

/-- Witness for C6: the existing but unwhitelisted file `docs/notes.md`
is concretely rejected by both variants. -/
theorem C6_unwhitelisted_never_read_witness :
    (read_file_content_app fsDocs "/home/user" 1000 (some "chat1") [] "docs/notes.md").1 =
      ReadResult.err ("File type " ++ splitextExt "docs/notes.md" ++ " is not whitelisted.") ∧
    read_file_content_tools fsDocs "/home/user" "docs/notes.md" =
      ReadResult.err ("File type " ++ splitextExt "docs/notes.md" ++ " is not whitelisted.") :=
  C6_unwhitelisted_never_read fsDocs "/home/user" "docs/notes.md" "/home/user/docs/notes.md"
    1000 "chat1" [] (by decide) (by decide) (by decide) (fun e he => nomatch he) (by decide)

/-- C10: whenever a fresh cache row exists for (chat, path), the cached
`read_file_content` returns that row's content and token estimate directly.
The file system `fs` is arbitrary and unconstrained, so no disk check —
existence, whitelist, or size — is performed on that invocation. -/
theorem C10_cache_hit_skips_disk
    (fs : FS) (home path : String) (now : Int) (cid : String) (cache : Cache) (e : CacheEntry)
    (hhit : cacheLookup cache cid path now = some e) :
    read_file_content_app fs home now (some cid) cache path =
      (ReadResult.content path e.content (estimate_tokens e.content) (some "cache"), cache) := by
  dsimp only [read_file_content_app]
  rw [hhit]

/-- Witness for C10: a fresh cache row is served concretely on a file
system where the file no longer exists. -/
theorem C10_cache_hit_skips_disk_witness :
    read_file_content_app fsEmpty "/home/user" 1000 (some "chat1")
        [⟨"chat1", "docs/a.txt", "cached words", 500⟩] "docs/a.txt" =
      (ReadResult.content "docs/a.txt" "cached words" (estimate_tokens "cached words") (some "cache"),
       [⟨"chat1", "docs/a.txt", "cached words", 500⟩]) :=
  C10_cache_hit_skips_disk fsEmpty "/home/user" "docs/a.txt" 1000 "chat1"
    [⟨"chat1", "docs/a.txt", "cached words", 500⟩] ⟨"chat1", "docs/a.txt", "cached words", 500⟩
    (by decide)

/-- Supporting fact: the `finally` removal leaves no occurrence of the
script path behind. -/
theorem removeIfExists_not_mem (sp : String) (l : List String) :
    sp ∉ removeIfExists sp l := by
  unfold removeIfExists
  split
  · intro hmem
    have := (List.mem_filter.mp hmem).2
    simp at this
  · rename_i hc
    intro hmem
    exact hc (by simpa using hmem)

/-- C8: on every exit path of `execute_python_script` — failed write,
successful run, non-zero exit, timeout, or any other exception, and whatever
files the executed code itself created or deleted — the temporary script
file is absent from the resulting file set. -/
theorem C8_temp_script_removed (pre : List String) (scriptName : String) (env : ScriptRunEnv) :
    joinPath CODE_DIR scriptName ∉ (execute_python_script pre scriptName env).2 := by
  dsimp only [execute_python_script]
  split
  · exact removeIfExists_not_mem _ _
  · exact removeIfExists_not_mem _ _

/-- Supporting fact: the walk loop only appends to the collected content
map. -/
theorem dirScan_filesData_mono (fs : FS) (home : String) (sel : Option (List String))
    (l : List WalkFile) (pr : String × String) :
    ∀ acc : ScanAcc, pr ∈ acc.filesData → pr ∈ (dirScan fs home sel l acc).filesData := by
  induction l with
  | nil => intro acc hpr; simpa [dirScan] using hpr
  | cons f rest ih =>
    intro acc hpr
    dsimp only [dirScan]
    split
    · exact hpr
    · split
      · split
        · exact ih _ hpr
        · split
          · exact ih _ (List.mem_append_left _ hpr)
          · split
            · exact ih _ hpr
            · exact ih _ hpr
      · exact ih _ hpr

/-- Supporting fact: a non-empty selection list is truthy. -/
theorem pyFalsy_nonempty (sel : List String) (hsel : sel ≠ []) :
    pyFalsy (some sel) = false := by
  simp [pyFalsy, hsel]

/-- Supporting fact: with a non-empty selection, every collected file was
selected. -/
theorem dirScan_selected_subset (fs : FS) (home : String) (sel : List String)
    (hsel : sel ≠ []) (l : List WalkFile) (pr : String × String) :
    ∀ acc : ScanAcc, pr ∈ (dirScan fs home (some sel) l acc).filesData →
      pr ∈ acc.filesData ∨ pr.1 ∈ sel := by
  have hfal := pyFalsy_nonempty sel hsel
  induction l with
  | nil => intro acc h; left; simpa [dirScan] using h
  | cons f rest ih =>
    intro acc h
    dsimp only [dirScan] at h
    split at h
    · exact Or.inl h
    · split at h
      · split at h
        · exact ih { acc with scanCount := acc.scanCount + 1 } h
        · rename_i hskip
          split at h
          · rcases ih _ h with h1 | h2
            · rcases List.mem_append.mp h1 with h3 | h4
              · exact Or.inl h3
              · right
                rw [List.mem_singleton.mp h4]
                have hc : selectedContains (some sel) f.relPath = true := by
                  by_contra hnc
                  simp only [Bool.not_eq_true] at hnc
                  simp [hfal, hnc] at hskip
                simpa [selectedContains] using hc
            · exact Or.inr h2
          · split at h
            · rename_i hfy
              rw [hfal] at hfy
              simp at hfy
            · exact ih { acc with scanCount := acc.scanCount + 1 } h
      · exact ih _ h

/-- Supporting fact: with a non-empty selection, every selected,
whitelisted, readable file of the walk is collected with its content. -/
theorem dirScan_selected_complete (fs : FS) (home : String) (sel : List String)
    (hsel : sel ≠ []) (w : WalkFile) (c : String) (t : Nat) (so : Option String)
    (hwl : WHITELISTED_EXTENSIONS.contains (splitextExt w.name) = true)
    (hm : w.relPath ∈ sel)
    (hread : read_file_content_tools fs home w.relPath = ReadResult.content w.relPath c t so)
    (l : List WalkFile) :
    ∀ acc : ScanAcc, w ∈ l →
      (w.relPath, c) ∈ (dirScan fs home (some sel) l acc).filesData := by
  have hfal := pyFalsy_nonempty sel hsel
  have hc : selectedContains (some sel) w.relPath = true := by
    simpa [selectedContains] using hm
  induction l with
  | nil => intro acc hw; exact absurd hw (List.not_mem_nil w)
  | cons f rest ih =>
    intro acc hw
    dsimp only [dirScan]
    rcases List.mem_cons.mp hw with rfl | htail
    · rw [hfal]
      simp only [Bool.false_and, Bool.not_false, Bool.true_and, if_false]
      rw [hwl]
      simp only [if_true]
      rw [hc]
      simp only [Bool.not_true, Bool.and_false]
      rw [hread]
      simp only [if_false]
      exact dirScan_filesData_mono fs home (some sel) rest _ _
        (List.mem_append_right _ (List.mem_singleton.mpr rfl))
    · split
      · rename_i hbr
        rw [hfal] at hbr
        simp at hbr
      · split
        · split
          · exact ih _ htail
          · split
            · exact ih _ htail
            · split
              · rename_i hfy
                rw [hfal] at hfy
                simp at hfy
              · exact ih _ htail
        · exact ih _ htail

/-- Supporting fact: the cached variant's walk loop only appends to the
collected content map, for any cache state. -/
theorem dirScanApp_filesData_mono (fs : FS) (home : String) (now : Int)
    (chatId : Option String) (sel : Option (List String))
    (l : List (String × String)) (pr : String × String) :
    ∀ (cache : Cache) (acc : ScanAcc), pr ∈ acc.filesData →
      pr ∈ (dirScanApp fs home now chatId sel l cache acc).1.filesData := by
  induction l with
  | nil => intro cache acc hpr; simpa [dirScanApp] using hpr
  | cons hd rest ih =>
    obtain ⟨root, file⟩ := hd
    intro cache acc hpr
    dsimp only [dirScanApp]
    split
    · split
      · exact ih _ _ hpr
      · split
        · exact ih _ _ (List.mem_append_left _ hpr)
        · split
          · exact ih _ _ hpr
          · exact ih _ _ hpr
    · exact ih _ _ hpr

/-- Supporting fact: with a non-empty selection, every file the cached
variant collects was selected. -/
theorem dirScanApp_selected_subset (fs : FS) (home : String) (now : Int)
    (chatId : Option String) (selList : List String) (hne : selList ≠ [])
    (l : List (String × String)) (pr : String × String) :
    ∀ (cache : Cache) (acc : ScanAcc),
      pr ∈ (dirScanApp fs home now chatId (some selList) l cache acc).1.filesData →
      pr ∈ acc.filesData ∨ pr.1 ∈ selList := by
  have hfal := pyFalsy_nonempty selList hne
  induction l with
  | nil => intro cache acc h; left; simpa [dirScanApp] using h
  | cons hd rest ih =>
    obtain ⟨root, file⟩ := hd
    intro cache acc h
    dsimp only [dirScanApp] at h
    split at h
    · split at h
      · exact ih _ _ h
      · rename_i hskip
        split at h
        · rcases ih _ _ h with h1 | h2
          · rcases List.mem_append.mp h1 with h3 | h4
            · exact Or.inl h3
            · right
              rw [List.mem_singleton.mp h4]
              have hc : selectedContains (some selList)
                  (relpathFromHome home (joinPath root file)) = true := by
                by_contra hnc
                simp only [Bool.not_eq_true] at hnc
                simp [hfal, hnc] at hskip
              simpa [selectedContains] using hc
          · exact Or.inr h2
        · split at h
          · rename_i hfy
            rw [hfal] at hfy
            simp at hfy
          · exact ih _ _ h
    · exact ih _ _ h

/-- Supporting fact: with a non-empty selection, every selected,
whitelisted walked file whose cached read yields content (from any cache
state) is collected with some content. -/
theorem dirScanApp_selected_complete (fs : FS) (home : String) (now : Int)
    (chatId : Option String) (selList : List String) (hne : selList ≠ [])
    (root file : String)
    (hwl : WHITELISTED_EXTENSIONS.contains (splitextExt file) = true)
    (hm : relpathFromHome home (joinPath root file) ∈ selList)
    (hread : ∀ cache2 : Cache, ∃ c t so,
      (read_file_content_app fs home now chatId cache2
          (relpathFromHome home (joinPath root file))).1 =
        ReadResult.content (relpathFromHome home (joinPath root file)) c t so)
    (l : List (String × String)) :
    ∀ (cache : Cache) (acc : ScanAcc), (root, file) ∈ l →
      ∃ c, (relpathFromHome home (joinPath root file), c) ∈
        (dirScanApp fs home now chatId (some selList) l cache acc).1.filesData := by
  have hfal := pyFalsy_nonempty selList hne
  have hc : selectedContains (some selList) (relpathFromHome home (joinPath root file)) = true := by
    simpa [selectedContains] using hm
  induction l with
  | nil => intro cache acc hw; exact absurd hw (List.not_mem_nil _)
  | cons hd rest ih =>
    obtain ⟨r0, f0⟩ := hd
    intro cache acc hw
    rcases List.mem_cons.mp hw with heq | htail
    · injection heq with h1 h2
      subst h1
      subst h2
      dsimp only [dirScanApp]
      rw [hwl]
      simp only [if_true]
      rw [hfal, hc]
      simp only [Bool.not_false, Bool.not_true, Bool.true_and, Bool.and_false, if_false]
      obtain ⟨c, t, so, heq2⟩ := hread cache
      rw [heq2]
      exact ⟨c, dirScanApp_filesData_mono fs home now chatId (some selList) rest _ _ _
        (List.mem_append_right _ (List.mem_singleton.mpr rfl))⟩
    · dsimp only [dirScanApp]
      split
      · split
        · exact ih _ _ htail
        · split
          · exact ih _ _ htail
          · split
            · rename_i hfy
              rw [hfal] at hfy
              simp at hfy
            · exact ih _ _ htail
      · exact ih _ _ htail

/-- C7 (amended): in both variants of `read_directory_recursively`, an
unfiltered call (absent *or empty* `selected_files` — Python truthiness)
returns `file_selection_pending` with per-file token costs and no content
when the aggregate token estimate exceeds the threshold — or, in the
src/agent_tools.py variant only, when the scanned file count exceeds the
64-file cap (the src/app.py variant has no cap); with a **non-empty**
`selected_files` both variants succeed regardless of the aggregate,
returning content exactly for the selected files that are whitelisted and
readable.  (The original claim's "whenever selected_files is supplied"
fails for the empty list, which both variants treat as no filter — see
`C7_counterexample_empty_selection`.) -/
theorem C7_selection_and_threshold
    (fs : FS) (tree : DirTree) (home path fp : String) (sel : Option (List String))
    (selList : List String) (now : Int) (chatId : Option String) (cache : Cache)
    (h1 : path ≠ ".") (h2 : path ≠ "~") (h3 : path ≠ "~/")
    (hres : resolve_path fs.realp home path = some fp)
    (hex : fs.fexists fp = true) (hdir : fs.isDir fp = true) :
    (pyFalsy sel = true →
      ((dirScan fs home sel (fs.walk fp) ⟨[], [], 0, 0⟩).total > CONTEXT_WINDOW_THRESHOLD ∨
       (dirScan fs home sel (fs.walk fp) ⟨[], [], 0, 0⟩).scanCount > MAX_FILES_BEFORE_SELECTION) →
      read_directory_recursively_tools fs home path sel =
        DirResult.pending (dirScan fs home sel (fs.walk fp) ⟨[], [], 0, 0⟩).filesWithTokens
          (dirScan fs home sel (fs.walk fp) ⟨[], [], 0, 0⟩).total) ∧
    (sel = some selList → selList ≠ [] →
      read_directory_recursively_tools fs home path sel =
        DirResult.success (dirScan fs home (some selList) (fs.walk fp) ⟨[], [], 0, 0⟩).filesData
          (dirScan fs home (some selList) (fs.walk fp) ⟨[], [], 0, 0⟩).total
          (dirScan fs home (some selList) (fs.walk fp) ⟨[], [], 0, 0⟩).filesData.length ∧
      (∀ pr ∈ (dirScan fs home (some selList) (fs.walk fp) ⟨[], [], 0, 0⟩).filesData,
        pr.1 ∈ selList) ∧
      (∀ w ∈ fs.walk fp, WHITELISTED_EXTENSIONS.contains (splitextExt w.name) = true →
        w.relPath ∈ selList →
        ∀ c t so,
          read_file_content_tools fs home w.relPath = ReadResult.content w.relPath c t so →
          (w.relPath, c) ∈ (dirScan fs home (some selList) (fs.walk fp) ⟨[], [], 0, 0⟩).filesData)) ∧
    (pyFalsy sel = true →
      (dirScanApp fs home now chatId sel (appWalk fp tree) cache ⟨[], [], 0, 0⟩).1.total >
          CONTEXT_WINDOW_THRESHOLD →
      (read_directory_recursively_app fs tree home path now chatId cache sel).1 =
        DirResult.pending
          (dirScanApp fs home now chatId sel (appWalk fp tree) cache ⟨[], [], 0, 0⟩).1.filesWithTokens
          (dirScanApp fs home now chatId sel (appWalk fp tree) cache ⟨[], [], 0, 0⟩).1.total) ∧
    (sel = some selList → selList ≠ [] →
      (read_directory_recursively_app fs tree home path now chatId cache sel).1 =
        DirResult.success
          (dirScanApp fs home now chatId (some selList) (appWalk fp tree) cache ⟨[], [], 0, 0⟩).1.filesData
          (dirScanApp fs home now chatId (some selList) (appWalk fp tree) cache ⟨[], [], 0, 0⟩).1.total
          (dirScanApp fs home now chatId (some selList) (appWalk fp tree) cache ⟨[], [], 0, 0⟩).1.filesData.length ∧
      (∀ pr ∈ (dirScanApp fs home now chatId (some selList) (appWalk fp tree) cache ⟨[], [], 0, 0⟩).1.filesData,
        pr.1 ∈ selList) ∧
      (∀ root file, (root, file) ∈ appWalk fp tree →
        WHITELISTED_EXTENSIONS.contains (splitextExt file) = true →
        relpathFromHome home (joinPath root file) ∈ selList →
        (∀ cache2 : Cache, ∃ c t so,
          (read_file_content_app fs home now chatId cache2
              (relpathFromHome home (joinPath root file))).1 =
            ReadResult.content (relpathFromHome home (joinPath root file)) c t so) →
        ∃ c, (relpathFromHome home (joinPath root file), c) ∈
          (dirScanApp fs home now chatId (some selList) (appWalk fp tree) cache ⟨[], [], 0, 0⟩).1.filesData)) := by
  refine ⟨?_, ?_, ?_, ?_⟩
  · intro hfal hover
    have hcond : (pyFalsy sel &&
        (decide ((dirScan fs home sel (fs.walk fp) ⟨[], [], 0, 0⟩).total > CONTEXT_WINDOW_THRESHOLD) ||
         decide ((dirScan fs home sel (fs.walk fp) ⟨[], [], 0, 0⟩).scanCount > MAX_FILES_BEFORE_SELECTION))) = true := by
      rcases hover with h | h <;> simp [hfal, h]
    simp [read_directory_recursively_tools, h1, h2, h3, hres, hex, hdir, hfal] at hcond ⊢
    intro hle
    omega
  · rintro rfl hne
    have hfal := pyFalsy_nonempty selList hne
    refine ⟨?_, ?_, ?_⟩
    · simp [read_directory_recursively_tools, h1, h2, h3, hres, hex, hdir, hfal]
    · intro pr hpr
      rcases dirScan_selected_subset fs home selList hne (fs.walk fp) pr _ hpr with h | h
      · exact absurd h (List.not_mem_nil pr)
      · exact h
    · intro w hw hwl hm c t so hread
      exact dirScan_selected_complete fs home selList hne w c t so hwl hm hread (fs.walk fp) _ hw
  · intro hfal hover
    simp [read_directory_recursively_app, hres, hex, hdir, hfal] at hover ⊢
    rw [if_pos hover]
  · rintro rfl hne
    have hfal := pyFalsy_nonempty selList hne
    refine ⟨?_, ?_, ?_⟩
    · simp [read_directory_recursively_app, hres, hex, hdir, hfal]
    · intro pr hpr
      rcases dirScanApp_selected_subset fs home now chatId selList hne (appWalk fp tree) pr
          cache ⟨[], [], 0, 0⟩ hpr with h | h
      · exact absurd h (List.not_mem_nil pr)
      · exact h
    · intro root file hw hwl hm hread
      exact dirScanApp_selected_complete fs home now chatId selList hne root file hwl hm hread
        (appWalk fp tree) cache ⟨[], [], 0, 0⟩ hw

/-- Witness for C7: a concrete one-file selection returns exactly that
file's content in both variants. -/
theorem C7_selection_and_threshold_witness :
    read_directory_recursively_tools fsDocs "/home/user" "docs" (some ["docs/a.txt"]) =
      DirResult.success [("docs/a.txt", "hi")] (estimate_tokens "hi") 1 ∧
    (read_directory_recursively_app fsDocs treeDocs "/home/user" "docs" 1000 (some "chat1") []
        (some ["docs/a.txt"])).1 =
      DirResult.success [("docs/a.txt", "hi")] (estimate_tokens "hi") 1 := by
  have h := C7_selection_and_threshold fsDocs treeDocs "/home/user" "docs" "/home/user/docs"
      (some ["docs/a.txt"]) ["docs/a.txt"] 1000 (some "chat1") []
      (by decide) (by decide) (by decide) (by decide) (by decide) (by decide)
  exact ⟨((h.2.1 rfl (by decide)).1).trans (by decide),
         ((h.2.2.2 rfl (by decide)).1).trans (by decide)⟩

/-- C7 counterexample: with `selected_files = []` (supplied but empty),
the tool returns the *whole* directory's content — `docs/a.txt` is returned
although it is not in the selected set, because `if not selected_files:`
treats the empty list as no filter. -/
theorem C7_counterexample_empty_selection :
    read_directory_recursively_tools fsDocs "/home/user" "docs" (some []) =
      DirResult.success [("docs/a.txt", "hi")] (estimate_tokens "hi") 1 ∧
    ¬ ("docs/a.txt" ∈ ([] : List String)) := by
  exact ⟨by decide, by simp⟩

/-- Supporting fact: a call that leaves plan and cursor unchanged satisfies
the evolution invariant. -/
theorem StepOK_same (r : ExecStatus × ExecState × Option Nat) (st : ExecState)
    (hp : r.2.1.plan = st.plan) (hi : r.2.1.stepIdx = st.stepIdx)
    (hd : r.2.2 = none ∨
      ∃ plan, st.plan = some plan ∧ r.2.2 = some st.stepIdx ∧ st.stepIdx < plan.length) :
    StepOK r st := by
  refine ⟨Or.inl hp, Or.inl (by rw [hi]), by rw [hi]; exact Nat.le_succ _, ?_, ?_, ?_⟩
  · intro plan hpl hle
    left
    rw [hi]
    exact hle
  · intro i hic
    rcases hd with hd | ⟨plan, hpl, hd2, hlt⟩
    · rw [hd] at hic
      exact absurd hic (by simp)
    · rw [hd2] at hic
      obtain rfl := Option.some.inj hic
      exact ⟨rfl, plan, hpl, hlt⟩
  · intro hnone
    refine ⟨by rw [hp]; exact hnone, ?_⟩
    rcases hd with hd | ⟨plan, hpl, _, _⟩
    · exact hd
    · rw [hnone] at hpl
      exact absurd hpl (by simp)

/-- Supporting fact: a call that clears the plan state satisfies the
evolution invariant. -/
theorem StepOK_cleared (r : ExecStatus × ExecState × Option Nat) (st : ExecState)
    (hp : r.2.1.plan = none) (hi : r.2.1.stepIdx = 0)
    (hd : r.2.2 = none ∨
      ∃ plan, st.plan = some plan ∧ r.2.2 = some st.stepIdx ∧ st.stepIdx < plan.length) :
    StepOK r st := by
  refine ⟨Or.inr hp, Or.inr hp, by rw [hi]; exact Nat.zero_le _, ?_, ?_, ?_⟩
  · intro plan hpl hle
    right
    exact hp
  · intro i hic
    rcases hd with hd | ⟨plan, hpl, hd2, hlt⟩
    · rw [hd] at hic
      exact absurd hic (by simp)
    · rw [hd2] at hic
      obtain rfl := Option.some.inj hic
      exact ⟨rfl, plan, hpl, hlt⟩
  · intro hnone
    refine ⟨hp, ?_⟩
    rcases hd with hd | ⟨plan, hpl, _, _⟩
    · exact hd
    · rw [hnone] at hpl
      exact absurd hpl (by simp)

/-- Supporting fact: a call that completes the current step (cursor
advanced by exactly one, within bounds) satisfies the evolution
invariant. -/
theorem StepOK_next (r : ExecStatus × ExecState × Option Nat) (st : ExecState)
    (plan : List PlanStep) (hplan : st.plan = some plan)
    (hp : r.2.1.plan = some plan) (hi : r.2.1.stepIdx = st.stepIdx + 1)
    (hlt : st.stepIdx < plan.length)
    (hd : r.2.2 = none ∨ r.2.2 = some st.stepIdx) :
    StepOK r st := by
  refine ⟨Or.inl (by rw [hp, hplan]), Or.inl (by rw [hi]; exact Nat.le_succ _),
    by rw [hi], ?_, ?_, ?_⟩
  · intro plan2 hpl2 hle
    left
    rw [hplan] at hpl2
    obtain rfl := Option.some.inj hpl2
    rw [hi]
    omega
  · intro i hic
    rcases hd with hd | hd
    · rw [hd] at hic
      exact absurd hic (by simp)
    · rw [hd] at hic
      obtain rfl := Option.some.inj hic
      exact ⟨rfl, plan, hplan, hlt⟩
  · intro hnone
    rw [hnone] at hplan
    exact absurd hplan (by simp)

/-- Supporting fact: every single executor call — `/api/execute_plan` with
any `selected_files`, or either `/api/agent_action` action — satisfies the
evolution invariant `StepOK`. -/
theorem executor_invoke_StepOK (E : ExecEnv) (c : ExecutorCall) (st : ExecState) :
    StepOK (executor_invoke E c st) st := by
  cases c with
  | runStep sel =>
    dsimp only [executor_invoke, execute_plan_app]
    cases hplan : st.plan with
    | none => exact StepOK_cleared _ _ rfl rfl (Or.inl rfl)
    | some plan =>
      dsimp only
      cases hstep : plan[st.stepIdx]? with
      | none => exact StepOK_cleared _ _ rfl rfl (Or.inl rfl)
      | some step =>
        obtain ⟨hlt, -⟩ := List.getElem?_eq_some.mp hstep
        dsimp only
        split
        · exact StepOK_same _ _ hplan.symm rfl (Or.inl rfl)
        · split
          · exact StepOK_same _ _ hplan.symm rfl (Or.inr ⟨plan, hplan, rfl, hlt⟩)
          · exact StepOK_same _ _ hplan.symm rfl (Or.inr ⟨plan, hplan, rfl, hlt⟩)
          · exact StepOK_same _ _ hplan.symm rfl (Or.inr ⟨plan, hplan, rfl, hlt⟩)
          · split
            · split
              · exact StepOK_next _ _ plan hplan rfl rfl hlt (Or.inr rfl)
              · exact StepOK_cleared _ _ rfl rfl (Or.inr ⟨plan, hplan, rfl, hlt⟩)
              · exact StepOK_cleared _ _ rfl rfl (Or.inr ⟨plan, hplan, rfl, hlt⟩)
            · exact StepOK_next _ _ plan hplan rfl rfl hlt (Or.inr rfl)
  | action a =>
    dsimp only [executor_invoke, agent_action_app]
    cases hplan : st.plan with
    | none => exact StepOK_same _ _ rfl rfl (Or.inl rfl)
    | some plan =>
      dsimp only
      cases hstep : plan[st.stepIdx]? with
      | none => exact StepOK_same _ _ rfl rfl (Or.inl rfl)
      | some step =>
        obtain ⟨hlt, -⟩ := List.getElem?_eq_some.mp hstep
        dsimp only
        cases a with
        | confirmDeletion cmd =>
          dsimp only
          split
          · exact StepOK_next _ _ plan hplan rfl rfl hlt (Or.inl rfl)
          · exact StepOK_same _ _ rfl rfl (Or.inl rfl)
        | processSelectedFiles files =>
          dsimp only
          split
          · exact StepOK_next _ _ plan hplan rfl rfl hlt (Or.inr rfl)
          · exact StepOK_same _ _ rfl rfl (Or.inl rfl)

/-- Supporting fact: once the cursor has passed index `i` (or the plan
state is cleared), no later executor call in any sequence dispatches plan
step `i` again. -/
theorem executor_trace_no_dispatch_below (E : ExecEnv) (i : Nat) :
    ∀ (calls : List ExecutorCall) (st : ExecState),
      (st.plan = none ∨ i < st.stepIdx) →
      some i ∉ (executor_trace E calls st).1 := by
  intro calls
  induction calls with
  | nil =>
    intro st h
    simp [executor_trace]
  | cons c cs ih =>
    intro st h
    dsimp only [executor_trace]
    intro hmem
    have hOK := executor_invoke_StepOK E c st
    rcases List.mem_cons.mp hmem with heq | htail
    · rcases h with hnone | hlt
      · have hnd := (hOK.2.2.2.2.2 hnone).2
        rw [hnd] at heq
        exact absurd heq (by simp)
      · obtain ⟨hi, plan, hpl, hplt⟩ := hOK.2.2.2.2.1 i heq.symm
        omega
    · refine ih _ ?_ htail
      rcases h with hnone | hlt
      · exact Or.inl (hOK.2.2.2.2.2 hnone).1
      · rcases hOK.1 with hp | hp
        · rcases hOK.2.1 with hle | hnone2
          · exact Or.inr (lt_of_lt_of_le hlt hle)
          · exact Or.inl hnone2
        · exact Or.inl hp

/-- C9 (amended): for any sequence of executor calls against a plan
instance, the cursor never decreases while the plan is alive, advances by at
most one per call, and never exceeds the plan length; every dispatch targets
exactly the current cursor position; and a *completed* step (one the cursor
has moved past) is never dispatched again.  The original claim's "never
dispatches plan[i] twice" fails for *paused* steps: repeated
`/api/execute_plan` calls while a confirmation is pending re-dispatch the
same step each time — see `C9_counterexample_double_dispatch`. -/
theorem C9_cursor_monotonic (E : ExecEnv) :
    (∀ c st, StepOK (executor_invoke E c st) st) ∧
    (∀ i calls st, (st.plan = none ∨ i < st.stepIdx) →
      some i ∉ (executor_trace E calls st).1) :=
  ⟨fun c st => executor_invoke_StepOK E c st,
   fun i calls st h => executor_trace_no_dispatch_below E i calls st h⟩

/-- Witness for C9: with the cursor already past step 0, a further
executor call does not dispatch step 0. -/
theorem C9_cursor_monotonic_witness :
    some 0 ∉ (executor_trace envPending [ExecutorCall.runStep none]
      { plan := some planRm, stepIdx := 1, goal := none, messages := [] }).1 :=
  (C9_cursor_monotonic envPending).2 0 [ExecutorCall.runStep none]
    { plan := some planRm, stepIdx := 1, goal := none, messages := [] }
    (Or.inr (by decide))

/-- C9 counterexample: two consecutive `/api/execute_plan` calls while
the guarded `rm` step is pending confirmation dispatch plan step 0 *twice*
(each call records a fresh `tool_call` and re-invokes the tool), with the
cursor still at 0. -/
theorem C9_counterexample_double_dispatch :
    (executor_trace envPending [ExecutorCall.runStep none, ExecutorCall.runStep none] stRm).1 =
      [some 0, some 0] ∧
    (executor_trace envPending [ExecutorCall.runStep none, ExecutorCall.runStep none] stRm).2.stepIdx = 0 := by
  exact ⟨by decide, by decide⟩

/-- C2 (amended): in the src/app.py executor a `confirmation_pending`
result records a `user_confirmation` prompt and returns the paused status
without advancing the cursor, and only the explicit `confirm_deletion`
action advances it (a denial issues no executor call at all, trivially
leaving the cursor unchanged); in the src/views.py executor, whose
confirmation handling was removed, the pending result is recorded as an
ordinary `tool_output` and the cursor advances past the step (the guarded
command itself is not executed).  The original claim fails on the views
variant — see `C2_counterexample_views_pending_advances`. -/
theorem C2_confirmation_pause
    (E : ExecEnv) (st : ExecState) (plan : List PlanStep) (step : PlanStep)
    (sel : Option (List String)) (cmd : String)
    (hplan : st.plan = some plan)
    (hstep : plan[st.stepIdx]? = some step)
    (hterm : step.tool = "run_terminal_command")
    (hdisp : E.tool step.tool step.params none =
      ToolDispatch.result (ToolOutcome.confirmationPending cmd)) :
    (execute_plan_app E sel st =
      (ExecStatus.confirmationPending (confirmationHtml cmd),
       { st with messages := st.messages ++
           [⟨"model", "tool_call", toolCallHtml step.tool step.params⟩,
            ⟨"model", "user_confirmation", confirmationHtml cmd⟩] },
       some st.stepIdx)) ∧
    (agent_action_app E (AgentAction.confirmDeletion cmd) st =
      (ExecStatus.proceed,
       { st with
         stepIdx := st.stepIdx + 1,
         messages := st.messages ++
           [⟨"user", "user_confirmation", "User approved command: " ++ cmd⟩,
            ⟨"model", "tool_output", "<pre>" ++ cmdResultJson (E.runCmd cmd) ++ "</pre>"⟩] },
       none)) ∧
    (st.stepIdx + 1 < plan.length →
      execute_plan_views E st =
        (ExecStatus.proceed,
         { st with
           stepIdx := st.stepIdx + 1,
           messages := st.messages ++
             [⟨"model", "tool_output",
               "<pre>" ++ toolOutcomeJson (ToolOutcome.confirmationPending cmd) ++ "</pre>"⟩] },
         some st.stepIdx)) := by
  have hdisp2 : E.tool step.tool step.params
      (if (step.tool == "read_directory_recursively") = true then sel else none) =
      ToolDispatch.result (ToolOutcome.confirmationPending cmd) := by
    rw [hterm] at hdisp ⊢
    simpa using hdisp
  have happ : TOOLS_MAP_app.contains step.tool = true := by
    rw [hterm]; decide
  have htls : TOOLS_MAP_tools.contains step.tool = true := by
    rw [hterm]; decide
  refine ⟨?_, ?_, ?_⟩
  · dsimp only [execute_plan_app]
    rw [hplan]
    try dsimp only
    rw [hstep]
    try dsimp only
    rw [happ]
    try dsimp only [Bool.not_true]
    rw [if_neg (by simp)]
    rw [hdisp2]
    simp
  · dsimp only [agent_action_app]
    rw [hplan]
    try dsimp only
    rw [hstep]
    try dsimp only
    rw [hterm]
    simp
  · intro hlast
    dsimp only [execute_plan_views]
    rw [hplan]
    try dsimp only
    rw [hstep]
    try dsimp only
    rw [htls]
    try dsimp only [Bool.not_true]
    rw [if_neg (by simp)]
    rw [hterm] at hdisp
    rw [hterm, hdisp]
    try dsimp only
    rw [if_neg (by omega)]

/-- Witness for C2: the app executor concretely pauses on the pending
`rm -rf tmp` step without advancing the cursor. -/
theorem C2_confirmation_pause_witness :
    execute_plan_app envPending none stRm =
      (ExecStatus.confirmationPending (confirmationHtml "rm -rf tmp"),
       { stRm with messages := stRm.messages ++
           [⟨"model", "tool_call", toolCallHtml "run_terminal_command" "\x7b\"command\": \"rm -rf tmp\"\x7d"⟩,
            ⟨"model", "user_confirmation", confirmationHtml "rm -rf tmp"⟩] },
       some 0) :=
  (C2_confirmation_pause envPending stRm planRm
    ⟨"run_terminal_command", "\x7b\"command\": \"rm -rf tmp\"\x7d", none⟩
    none "rm -rf tmp" rfl rfl rfl (by decide)).1

/-- C2 counterexample: the views executor records the pending
confirmation as a `tool_output` message and advances the cursor from 0
to 1 — it neither records a `user_confirmation` prompt nor pauses. -/
theorem C2_counterexample_views_pending_advances :
    execute_plan_views envPending stRm =
      (ExecStatus.proceed,
       { plan := some planRm, stepIdx := 1, goal := some "clean up",
         messages := [⟨"model", "tool_output",
           "<pre>\x7b\"status\": \"confirmation_pending\", \"command\": \"rm -rf tmp\"\x7d</pre>"⟩] },
       some 0) := by
  decide

/-- C4 counterexample: with the classifier answering TASK, the planner
returning non-JSON text and the fallback chat call succeeding, the message
recorded for the turn is the rendered chat response — it contains neither
the planner's raw text nor the parse error, because the CHAT branch
*reassigns* `response_text` after the error message was built. -/
theorem C4_counterexample_parse_error_overwritten :
    (api_chat_turn chatEnvId chatInpParseFail).content =
      "Hello\n\n<div class=\"msg-meta\">(Model: gemini-2.5-pro | <span class=\"msg-counter\">1</span>)</div>" ∧
    (api_chat_turn chatEnvId chatInpParseFail).messageType = "chat" ∧
    hasSubstr (api_chat_turn chatEnvId chatInpParseFail).content "not json" = false ∧
    hasSubstr (api_chat_turn chatEnvId chatInpParseFail).content "Expecting value" = false := by
  refine ⟨by decide, by decide, by decide, by decide⟩

/-- C4 (amended): a planner response that fails JSON parsing or violates
the plan schema does not abort the turn — the error is caught, `decision`
is reset to CHAT and the turn is handled as an ordinary chat turn; however
the recorded transcript message is the subsequent chat response, which
*overwrites* the constructed parse-error-plus-raw-text message, so neither
the parse error nor the raw text reaches the transcript when the fallback
chat call returns text — see
`C4_counterexample_parse_error_overwritten`. -/
theorem C4_parse_failure_fallback
    (E : ChatTurnEnv) (inp : ChatTurnInput)
    (hagent : inp.agentMode = true)
    (htask : hasSubstr (pyUpper (pyStrip inp.classifierText)) "TASK" = true)
    (hcand : inp.plannerResp.hasCandidates = true)
    (hsafe : inp.plannerResp.finishedSafety = false)
    (hfail : ∀ steps, E.parse (stripCodeFences inp.plannerResp.text) ≠ PlanParse.ok steps)
    (hccand : inp.chatResp.hasCandidates = true)
    (hcsafe : inp.chatResp.finishedSafety = false) :
    api_chat_turn E inp =
      ⟨E.render inp.chatResp.text ++ "\n\n<div class=\"msg-meta\">(Model: " ++ E.modelName
          ++ " | <span class=\"msg-counter\">" ++ toString E.msgCount ++ "</span>)</div>",
       "chat", none, none, none⟩ := by
  have hchat : hasSubstr "CHAT" "CHAT" = true := by decide
  dsimp only [api_chat_turn]
  cases hp : E.parse (stripCodeFences inp.plannerResp.text) with
  | ok steps => exact absurd hp (hfail steps)
  | failed e =>
    simp [hagent, htask, hcand, hsafe, hchat, hccand, hcsafe]
  | invalidStructure =>
    simp [hagent, htask, hcand, hsafe, hchat, hccand, hcsafe]

/-- Witness for C4: the concrete parse-failure turn records exactly the
chat response. -/
theorem C4_parse_failure_fallback_witness :
    api_chat_turn chatEnvId chatInpParseFail =
      ⟨"Hello\n\n<div class=\"msg-meta\">(Model: gemini-2.5-pro | <span class=\"msg-counter\">1</span>)</div>",
       "chat", none, none, none⟩ :=
  (C4_parse_failure_fallback chatEnvId chatInpParseFail rfl (by decide) rfl rfl
    (fun steps h => PlanParse.noConfusion h) rfl rfl).trans (by decide)

/-- C5 (amended): the agent/TASK path is taken exactly when agent mode is on
and `'TASK'` occurs as a *substring* of the stripped-and-uppercased
classifier response — in particular for responses that are not exactly the
label (first conjunct: substring suffices; second conjunct: it is also
necessary); a response containing neither label leaves the recorded
response empty (an empty `chat` message, not an ordinary chat response);
any response without `'TASK'` yields message type `chat` and stores no
plan.  The original claim fails both on the exact-label test and on the
neither-label case — see `C5_counterexample_substring_and_empty`. -/
theorem C5_classifier_substring_dispatch (E : ChatTurnEnv) (inp : ChatTurnInput) :
    (∀ steps, inp.agentMode = true →
      hasSubstr (pyUpper (pyStrip inp.classifierText)) "TASK" = true →
      inp.plannerResp.hasCandidates = true →
      inp.plannerResp.finishedSafety = false →
      E.parse (stripCodeFences inp.plannerResp.text) = PlanParse.ok steps →
      (api_chat_turn E inp).storedPlan = some steps ∧
      (api_chat_turn E inp).storedStep = some 0 ∧
      (api_chat_turn E inp).storedGoal = some inp.prompt ∧
      (api_chat_turn E inp).messageType = "agent_plan") ∧
    ((api_chat_turn E inp).storedPlan ≠ none →
      inp.agentMode = true ∧ hasSubstr (pyUpper (pyStrip inp.classifierText)) "TASK" = true) ∧
    (inp.agentMode = true →
      hasSubstr (pyUpper (pyStrip inp.classifierText)) "TASK" = false →
      hasSubstr (pyUpper (pyStrip inp.classifierText)) "CHAT" = false →
      api_chat_turn E inp = ⟨"", "chat", none, none, none⟩) ∧
    (inp.agentMode = true →
      hasSubstr (pyUpper (pyStrip inp.classifierText)) "TASK" = false →
      (api_chat_turn E inp).storedPlan = none ∧
      (api_chat_turn E inp).messageType = "chat") := by
  refine ⟨?_, ?_, ?_, ?_⟩
  · intro steps hagent htask hcand hsafe hp
    refine ⟨?_, ?_, ?_, ?_⟩ <;>
      simp [api_chat_turn, hagent, htask, hcand, hsafe, hp]
  · intro hsp
    cases hagent : inp.agentMode with
    | false =>
      exfalso
      apply hsp
      simp [api_chat_turn, hagent]
    | true =>
      refine ⟨rfl, ?_⟩
      by_contra htask
      apply hsp
      simp only [Bool.not_eq_true] at htask
      simp [api_chat_turn, hagent, htask]
  · intro hagent htask hchat
    simp [api_chat_turn, hagent, htask, hchat]
  · intro hagent htask
    constructor
    · simp [api_chat_turn, hagent, htask]
    · simp [api_chat_turn, hagent, htask]

/-- Witness for C5: the concrete classifier response `task: go` — which
contains TASK but is not exactly the label — concretely takes the agent
path and stores the parsed plan. -/
theorem C5_classifier_substring_dispatch_witness :
    (api_chat_turn chatEnvOkPlan chatInpTaskSub).storedPlan =
      some [⟨"list_directory", "\x7b\"path\": \"docs\"\x7d", some "see the files"⟩] ∧
    (api_chat_turn chatEnvOkPlan chatInpTaskSub).messageType = "agent_plan" :=
  have h := (C5_classifier_substring_dispatch chatEnvOkPlan chatInpTaskSub).1
    [⟨"list_directory", "\x7b\"path\": \"docs\"\x7d", some "see the files"⟩]
    rfl (by decide) rfl rfl rfl
  ⟨h.1, h.2.2.2⟩

/-- C5 counterexample: the classifier response `task: go` is not exactly the
TASK label, yet the agent path is taken and a plan is stored and recorded
(`agent_plan`), contradicting "only when the response is exactly the TASK
label"; and the response `OK`, containing neither label, records an *empty*
response rather than an ordinary chat response, contradicting "every other
response text is treated as CHAT ... never an empty recorded response". -/
theorem C5_counterexample_substring_and_empty :
    pyUpper (pyStrip chatInpTaskSub.classifierText) ≠ "TASK" ∧
    (api_chat_turn chatEnvOkPlan chatInpTaskSub).messageType = "agent_plan" ∧
    (api_chat_turn chatEnvOkPlan chatInpTaskSub).storedPlan =
      some [⟨"list_directory", "\x7b\"path\": \"docs\"\x7d", some "see the files"⟩] ∧
    api_chat_turn chatEnvId chatInpNoLabel = ⟨"", "chat", none, none, none⟩ := by
  refine ⟨by decide, by decide, by decide, by decide⟩
